import Mathlib

/-!
# jackPiledmeter: LED peak meter

A shallow embedding of `display_meter` and of the JACK tick loop of
`jackPiledmeter.c`, followed by theorems about the animator (attack, decay,
peak hold) and about the LED patterns that one call produces.

Conventions of the embedding.

* C `int` variables are `Int`. The dB levels, the decay counter and the pin
  numbers stay far inside the 32-bit range in every statement below, so no
  wrap-around is modelled for them. The hold counter `peak_hold_decay` is
  different: line 254 decrements it on every call without a lower guard, so its
  decrement is taken modulo 2^32 (`wrapInt32`), as the compiled program does.
* The globals and the two function statics of `display_meter` are the fields of
  `Meter`. The GPIO lines are a map from wiringPi pin number to level, and
  every wiringPi / stdio call that is issued is pushed onto `calls`, newest
  first.
* Reading `dbvalues[j]` outside the 16 entries of the table is undefined in C;
  the embedding returns `none` there.
* A `for` loop whose trip count is fixed on entry is a structural recursion on
  that count, carrying the loop variables `i` and `j` explicitly.
* `float` values are NaN, the two infinities or a rational. The product and
  `log10f` of line 446 are parameters (`FloatOps`); the theorems about the tick
  loop assume of them only what IEEE 754 and C Annex F fix at 0 and 1.
-/

namespace JackPiledmeter

/-! ## Configuration and state -/

/-- Globals that are written only while the command line is parsed and at
startup (lines 44-66, 406-408). -/
structure Config where
  o_stdout : Bool
  o_shift_register : Bool
  decay_len : Int
  decay_led : Int
  o_decay : Int
  o_peak_hold : Bool
  single_light : Bool
  first_led : Int
  number_of_leds : Int

/-- One call into wiringPi or stdio. -/
inductive IOCall where
  | digitalWrite (pin : Int) (value : Bool)
  | digitalRead (pin : Int)
  | printf (db : Int)
  | emptyBufferMessage
  deriving DecidableEq

/-- Mutable state seen by `display_meter`: the globals `dtime`, `peak_hold_db`,
`peak_hold_decay`, the statics `lastLEDlevel`, `newLEDlevel`, the level of every
GPIO line and the calls issued so far (newest first). -/
structure Meter where
  dtime : Int
  peak_hold_db : Int
  peak_hold_decay : Int
  lastLEDlevel : Int
  newLEDlevel : Int
  gpio : Int → Bool
  calls : List IOCall

/-- State at program start: zero-initialised globals and statics, all lines low. -/
def Meter.init : Meter :=
  { dtime := 0, peak_hold_db := 0, peak_hold_decay := 0, lastLEDlevel := 0,
    newLEDlevel := 0, gpio := fun _ => false, calls := [] }

/-- The table `dbvalues` of line 189 (1 dB steps). -/
def dbvalues : List Int :=
  [-1, -2, -3, -4, -5, -6, -7, -8, -9, -10, -11, -12, -13, -14, -15, -16]

/-- The C expression `dbvalues[j]`; `none` when `j` is outside the array. -/
def dbvalue (j : Int) : Option Int :=
  if 0 ≤ j then dbvalues[j.toNat]? else none

/-! ## wiringPi primitives -/

/-- Call `digitalWrite(pin, value)`: set the line and record the call. -/
def digitalWrite (pin : Int) (value : Bool) (s : Meter) : Meter :=
  { s with gpio := fun p => if p = pin then value else s.gpio p,
           calls := IOCall.digitalWrite pin value :: s.calls }

/-- Call `digitalRead(pin)`: the level of the line, and the call recorded. -/
def digitalRead (pin : Int) (s : Meter) : Bool × Meter :=
  (s.gpio pin, { s with calls := IOCall.digitalRead pin :: s.calls })

/-- Pin addressed for loop variable `i`: `100 + i` behind the shift register,
`i` on the discrete GPIO lines. -/
def ledPin (c : Config) (i : Int) : Int :=
  if c.o_shift_register then 100 + i else i

/-! ## display_meter -/

/-- Lines 196-208: instant attack, stepped decay, peak-hold latch. The test
`dtime++ > decay_led` compares the value before the increment. -/
def animate (c : Config) (db : Int) (s : Meter) : Meter :=
  let s1 : Meter :=
    if db ≥ s.lastLEDlevel ∨ c.o_decay = 0 then
      { s with dtime := 0, newLEDlevel := db, peak_hold_db := db,
               peak_hold_decay := c.decay_len }
    else if s.dtime > c.decay_led then
      let n := s.newLEDlevel - c.o_decay
      { s with dtime := 0, newLEDlevel := if n < -144 then -144 else n }
    else
      { s with dtime := s.dtime + 1 }
  { s1 with lastLEDlevel := s1.newLEDlevel }

/-- Lines 217-223: `for (i = first_led; i <= first_led + number_of_leds; i++)`
writing 0; `n` is the number of iterations left. -/
def clearLoop (c : Config) : Nat → Int → Meter → Meter
  | 0, _, s => s
  | n + 1, i, s => clearLoop c n (i + 1) (digitalWrite (ledPin c i) false s)

/-- Lines 225-230: `for (i = first_led, j = number_of_leds - 1; i < first_led +
number_of_leds; i++, j--)`. The pair `have_pin`, `gpio_pin` is one
`Option Int` (`none` is `have_pin == 0`). -/
def selectLoop (level : Int) : Nat → Int → Int → Option Int → Option (Option Int)
  | 0, _, _, gpio_pin => some gpio_pin
  | n + 1, i, j, gpio_pin =>
    match dbvalue j with
    | none => none
    | some t =>
      selectLoop level n (i + 1) (j - 1) (if level ≥ t then some i else gpio_pin)

/-- Lines 215-237: the single wandering light. -/
def singleLight (c : Config) (s : Meter) : Option Meter :=
  let s1 := clearLoop c (c.number_of_leds + 1).toNat c.first_led s
  match selectLoop s1.newLEDlevel c.number_of_leds.toNat c.first_led
      (c.number_of_leds - 1) none with
  | none => none
  | some none => some s1
  | some (some gpio_pin) => some (digitalWrite (ledPin c gpio_pin) true s1)

/-- Lines 241-251, the body of the bar loop, with `t` the value `dbvalues[j]`:
behind the shift register the state is always written, on a GPIO line only
when it differs from what `digitalRead` reports. -/
def barBody (c : Config) (i : Int) (t : Int) (s : Meter) : Meter :=
  if c.o_shift_register then
    let new_state : Bool := decide (s.newLEDlevel ≥ t)
    digitalWrite (100 + i) new_state s
  else
    let r := digitalRead i s
    let current_state : Bool := r.1
    let new_state : Bool := decide (s.newLEDlevel ≥ t)
    if current_state != new_state then digitalWrite i new_state r.2 else r.2

/-- Lines 240-252: `for (i = first_led + number_of_leds - 1, j = 0;
i >= first_led; i--, j++)`, the bar of lights. -/
def barLoop (c : Config) : Nat → Int → Int → Meter → Option Meter
  | 0, _, _, s => some s
  | n + 1, i, j, s =>
    match dbvalue j with
    | none => none
    | some t => barLoop c n (i - 1) (j + 1) (barBody c i t s)

/-- Lines 215-253: the main pattern, single light or bar. -/
def renderMain (c : Config) (s : Meter) : Option Meter :=
  if c.single_light then singleLight c s
  else barLoop c c.number_of_leds.toNat (c.first_led + c.number_of_leds - 1) 0 s

/-- Lines 255-264: the overlay loop, leaving at the first satisfied threshold. -/
def overlayLoop (c : Config) : Nat → Int → Int → Meter → Option Meter
  | 0, _, _, s => some s
  | n + 1, i, j, s =>
    match dbvalue j with
    | none => none
    | some t =>
      if s.peak_hold_db ≥ t then some (digitalWrite (ledPin c i) true s)
      else overlayLoop c n (i - 1) (j + 1) s

/-- The value of a 32-bit `int` after an arithmetic step whose exact result is
`z`: reduction modulo 2^32 into `-2^31 .. 2^31 - 1`. -/
def wrapInt32 (z : Int) : Int :=
  (z + 2147483648) % 4294967296 - 2147483648

/-- Lines 254-265: `if (o_peak_hold && (peak_hold_decay-- > 0))` and its loop.
The decrement happens whenever `o_peak_hold` is set, also when the counter is
already at or below 0, and wraps at the lower end of `int`. -/
def peakHoldOverlay (c : Config) (s : Meter) : Option Meter :=
  if c.o_peak_hold then
    let s1 : Meter := { s with peak_hold_decay := wrapInt32 (s.peak_hold_decay - 1) }
    if s.peak_hold_decay > 0 then
      overlayLoop c c.number_of_leds.toNat (c.first_led + c.number_of_leds - 1) 0 s1
    else some s1
  else some s

/-- The function `display_meter` (lines 179-266). -/
def display_meter (c : Config) (db : Int) (s : Meter) : Option Meter :=
  let s1 := animate c db s
  if c.o_stdout then
    some { s1 with calls := IOCall.printf db :: s1.calls }
  else
    (renderMain c s1).bind (peakHoldOverlay c)

/-- Feed one reading per tick to `display_meter`. -/
def runMeter (c : Config) : List Int → Meter → Option Meter
  | [], s => some s
  | db :: rest, s => (display_meter c db s).bind (runMeter c rest)

/-- Startup computation of line 408, `decay_led = decay_len / rate * o_decay_bias`,
in C integer arithmetic: truncating division first, then the product. -/
def startupDecayLed (decay_len rate o_decay_bias : Int) : Int :=
  Int.tdiv decay_len rate * o_decay_bias

/-- The configuration for no command-line options at the default rate 40:
`decay_len` is 64 and `decay_led` comes from line 408. -/
def defaultConfig : Config :=
  { o_stdout := false, o_shift_register := false, decay_len := 64,
    decay_led := startupDecayLed 64 40 2, o_decay := 4, o_peak_hold := false,
    single_light := false, first_led := 0, number_of_leds := 8 }

/-! ## Auxiliary notions for the statements -/

/-- The animator variables of two states agree. -/
def SameAnim (s s' : Meter) : Prop :=
  s'.dtime = s.dtime ∧ s'.peak_hold_db = s.peak_hold_db ∧
  s'.peak_hold_decay = s.peak_hold_decay ∧ s'.lastLEDlevel = s.lastLEDlevel ∧
  s'.newLEDlevel = s.newLEDlevel

/-- State in which level `L` is on display and the decay counter is at rest. -/
def Meter.showing (L : Int) : Meter :=
  { Meter.init with lastLEDlevel := L, newLEDlevel := L }

/-- The thresholds (as indices into `dbvalues`) whose LED is on, among the
first `n`. -/
def litThresholds (c : Config) (s : Meter) (n : Nat) : List Nat :=
  (List.range n).filter
    (fun j => s.gpio (ledPin c (c.first_led + c.number_of_leds - 1 - (j : Int))))

/-- The configuration that option `-s` alone produces (lines 308-311). -/
def singleLightConfig : Config :=
  { defaultConfig with single_light := true, o_decay := 2 }

/-- The calls that the peak-hold overlay (lines 254-265) adds when
`display_meter` is called with `db` in state `s` and drives the LEDs. -/
def overlayCalls (c : Config) (db : Int) (s : Meter) : Option (List IOCall) :=
  (renderMain c (animate c db s)).bind fun m =>
    (peakHoldOverlay c m).map fun s' => s'.calls.take (s'.calls.length - m.calls.length)

/-- Every reading of the list, fed one per tick from state `s`, is below the
level on display when it arrives. -/
def staysBelow (c : Config) : List Int → Meter → Bool
  | [], _ => true
  | r :: rs, s =>
    decide (r < s.lastLEDlevel) &&
      match display_meter c r s with
      | some s' => staysBelow c rs s'
      | none => false

/-- The configuration that option `-p` alone produces. -/
def peakHoldConfig : Config := { defaultConfig with o_peak_hold := true }


/-- The configuration that options `-p -f 2` produce: `decay_len` is
`(int)(1.6f / 0.5f) = 3` and `decay_led` comes from line 408. -/
def peakHoldRate2Config : Config :=
  { peakHoldConfig with decay_len := 3, decay_led := startupDecayLed 3 2 2 }

/-! ## The JACK tick loop -/

/-- The values of a C `float` that the tick loop tells apart; finite values are
kept as rationals. -/
inductive FloatVal where
  | nan
  | negInf
  | posInf
  | finite (q : ℚ)
  deriving DecidableEq

/-- The floating-point operations of line 446, which the repository takes from
the FPU and from libm: the `float` product and `log10f`. -/
structure FloatOps where
  mul : FloatVal → FloatVal → FloatVal
  log10f : FloatVal → FloatVal

/-- What IEEE 754 and Annex F of the C standard fix about these operations at
the arguments used below: a product with `1.0f` is exact, `log10f(1) = 0`,
`log10f(0) = -inf`, `20.0f * 0 = 0` and `20.0f * -inf = -inf`. -/
def FloatOps.Standard (fl : FloatOps) : Prop :=
  (∀ x, fl.mul x (FloatVal.finite 1) = x) ∧
  fl.log10f (FloatVal.finite 1) = FloatVal.finite 0 ∧
  fl.log10f (FloatVal.finite 0) = FloatVal.negInf ∧
  fl.mul (FloatVal.finite 20) (FloatVal.finite 0) = FloatVal.finite 0 ∧
  fl.mul (FloatVal.finite 20) FloatVal.negInf = FloatVal.negInf

/-- The C comparison `x < y` on floats (false when a NaN is involved). -/
def FloatVal.lt : FloatVal → FloatVal → Bool
  | FloatVal.nan, _ => false
  | _, FloatVal.nan => false
  | FloatVal.negInf, FloatVal.negInf => false
  | FloatVal.negInf, _ => true
  | _, FloatVal.negInf => false
  | FloatVal.posInf, _ => false
  | _, FloatVal.posInf => true
  | FloatVal.finite a, FloatVal.finite b => decide (a < b)

/-- The C comparison `x >= y` on floats (false when a NaN is involved). -/
def FloatVal.ge : FloatVal → FloatVal → Bool
  | FloatVal.nan, _ => false
  | _, FloatVal.nan => false
  | _, FloatVal.negInf => true
  | FloatVal.negInf, _ => false
  | FloatVal.posInf, _ => true
  | _, FloatVal.posInf => false
  | FloatVal.finite a, FloatVal.finite b => decide (a ≥ b)

/-- The function `fabs`. -/
def FloatVal.fabs : FloatVal → FloatVal
  | FloatVal.nan => FloatVal.nan
  | FloatVal.negInf => FloatVal.posInf
  | FloatVal.posInf => FloatVal.posInf
  | FloatVal.finite q => FloatVal.finite |q|

/-- Conversion to `int` at the call `display_meter( db )`: truncation toward
zero; undefined (`none`) for NaN, the infinities and values outside `int`. -/
def FloatVal.toInt : FloatVal → Option Int
  | FloatVal.finite q =>
    let z : Int := if 0 ≤ q then Rat.floor q else -Rat.floor (-q)
    if -2147483648 ≤ z ∧ z ≤ 2147483647 then some z else none
  | _ => none

/-- State of the tick loop in `main`: the globals `peak` and `rr_too_high`
besides the state of `display_meter`. -/
structure Jack where
  peak : FloatVal
  rr_too_high : Int
  meter : Meter

/-- State at program start (`peak = 0.0f`, `rr_too_high = 0`). -/
def Jack.init : Jack :=
  { peak := FloatVal.finite 0, rr_too_high := 0, meter := Meter.init }

/-- The callback `process_peak` (lines 84-103) on one block of samples, with the
input port registered. -/
def process_peak : List FloatVal → Jack → Jack
  | [], s => s
  | x :: rest, s =>
    let v := FloatVal.fabs x
    process_peak rest (if FloatVal.lt s.peak v then { s with peak := v } else s)

/-- The function `read_peak` (lines 75-80): return the peak and reset it. -/
def read_peak (s : Jack) : FloatVal × Jack :=
  (s.peak, { s with peak := FloatVal.finite 0 })

/-- One iteration of the loop of lines 445-459, without the sleep: read and
reset the peak, convert to dB, report an empty buffer at most once, and call
`display_meter` only when `db >= -144.0f`. -/
def jackTick (fl : FloatOps) (c : Config) (bias : FloatVal) (s : Jack) : Option Jack :=
  let s1 : Jack := (read_peak s).2
  let db := fl.mul (FloatVal.finite 20) (fl.log10f (fl.mul (read_peak s).1 bias))
  let s2 : Jack :=
    if FloatVal.lt db (FloatVal.finite (-144)) then
      if s1.rr_too_high < 2 then
        let m : Meter :=
          if s1.rr_too_high > 0 then
            { s1.meter with calls := IOCall.emptyBufferMessage :: s1.meter.calls }
          else s1.meter
        { s1 with rr_too_high := s1.rr_too_high + 1, meter := m }
      else s1
    else s1
  if FloatVal.ge db (FloatVal.finite (-144)) then
    match FloatVal.toInt db with
    | none => none
    | some d => (display_meter c d s2.meter).map fun m => { s2 with meter := m }
  else some s2

/-- Run the tick loop with one audio block delivered before each tick. -/
def jackRun (fl : FloatOps) (c : Config) (bias : FloatVal) :
    List (List FloatVal) → Jack → Option Jack
  | [], s => some s
  | block :: rest, s =>
    (jackTick fl c bias (process_peak block s)).bind (jackRun fl c bias rest)

/-- The product of two float values without rounding. -/
def FloatVal.mulExact : FloatVal → FloatVal → FloatVal
  | FloatVal.nan, _ => FloatVal.nan
  | _, FloatVal.nan => FloatVal.nan
  | FloatVal.finite a, FloatVal.finite b => FloatVal.finite (a * b)
  | FloatVal.finite a, FloatVal.negInf =>
    if 0 < a then FloatVal.negInf else if a < 0 then FloatVal.posInf else FloatVal.nan
  | FloatVal.finite a, FloatVal.posInf =>
    if 0 < a then FloatVal.posInf else if a < 0 then FloatVal.negInf else FloatVal.nan
  | FloatVal.negInf, FloatVal.finite b =>
    if 0 < b then FloatVal.negInf else if b < 0 then FloatVal.posInf else FloatVal.nan
  | FloatVal.posInf, FloatVal.finite b =>
    if 0 < b then FloatVal.posInf else if b < 0 then FloatVal.negInf else FloatVal.nan
  | FloatVal.negInf, FloatVal.negInf => FloatVal.posInf
  | FloatVal.negInf, FloatVal.posInf => FloatVal.negInf
  | FloatVal.posInf, FloatVal.negInf => FloatVal.negInf
  | FloatVal.posInf, FloatVal.posInf => FloatVal.posInf

/-- Operations that are exact where the scenario needs them: the product is
taken without rounding, `log10f` is given at 0, 1 and infinity only. Used to
show that `FloatOps.Standard` can be met. -/
def sampleOps : FloatOps :=
  { mul := FloatVal.mulExact
    log10f := fun x =>
      match x with
      | FloatVal.finite q =>
        if q = 0 then FloatVal.negInf else if q = 1 then FloatVal.finite 0 else FloatVal.nan
      | FloatVal.posInf => FloatVal.posInf
      | _ => FloatVal.nan }

/-! ## Frame and loop lemmas -/

theorem SameAnim.refl (s : Meter) : SameAnim s s := ⟨rfl, rfl, rfl, rfl, rfl⟩

theorem SameAnim.trans {a b d : Meter} (h1 : SameAnim a b) (h2 : SameAnim b d) :
    SameAnim a d := by
  obtain ⟨h11, h12, h13, h14, h15⟩ := h1
  obtain ⟨h21, h22, h23, h24, h25⟩ := h2
  exact ⟨h21.trans h11, h22.trans h12, h23.trans h13, h24.trans h14, h25.trans h15⟩

theorem sameAnim_digitalWrite (pin : Int) (v : Bool) (s : Meter) :
    SameAnim s (digitalWrite pin v s) := ⟨rfl, rfl, rfl, rfl, rfl⟩

theorem dbvalue_eq (j : Int) (h0 : 0 ≤ j) (h16 : j < 16) : dbvalue j = some (-(j + 1)) := by
  obtain ⟨k, rfl⟩ := Int.eq_ofNat_of_zero_le h0
  have hk : k < 16 := by omega
  interval_cases k <;> rfl

theorem ledPin_inj (c : Config) (a b : Int) : ledPin c a = ledPin c b ↔ a = b := by
  unfold ledPin
  split <;> omega

theorem barBody_sameAnim (c : Config) (i t : Int) (s : Meter) :
    SameAnim s (barBody c i t s) := by
  unfold barBody
  split
  · exact sameAnim_digitalWrite _ _ _
  · simp only [digitalRead]
    split
    · exact ⟨rfl, rfl, rfl, rfl, rfl⟩
    · exact ⟨rfl, rfl, rfl, rfl, rfl⟩

theorem barBody_gpio (c : Config) (i t : Int) (s : Meter) (p : Int) :
    (barBody c i t s).gpio p =
      if p = ledPin c i then decide (s.newLEDlevel ≥ t) else s.gpio p := by
  unfold barBody ledPin
  by_cases hsr : c.o_shift_register = true
  · simp [hsr, digitalWrite]
  · simp only [hsr, digitalRead, digitalWrite]
    by_cases hp : p = i
    · subst hp
      by_cases hcur : s.gpio p = decide (s.newLEDlevel ≥ t)
      · simp [hcur]
      · simp [hcur]
    · by_cases hcur : s.gpio i = decide (s.newLEDlevel ≥ t)
      · simp [hcur, hp]
      · simp [hcur, hp]

theorem barLoop_spec (c : Config) (n : Nat) : ∀ (i j : Int) (s : Meter),
    0 ≤ j → j + n ≤ 16 →
    ∃ s', barLoop c n i j s = some s' ∧ SameAnim s s' ∧
      (∀ k : Nat, k < n → s'.gpio (ledPin c (i - k)) = decide (s.newLEDlevel ≥ -(j + k + 1))) ∧
      (∀ p, (∀ k : Nat, k < n → p ≠ ledPin c (i - k)) → s'.gpio p = s.gpio p) := by
  induction n with
  | zero =>
    intro i j s _ _
    exact ⟨s, rfl, SameAnim.refl s, by intro k hk; omega, by intro p _; rfl⟩
  | succ n ih =>
    intro i j s h0 h16
    have hdb : dbvalue j = some (-(j + 1)) := dbvalue_eq j h0 (by omega)
    obtain ⟨s', hrun, hsame, hlit, hrest⟩ :=
      ih (i - 1) (j + 1) (barBody c i (-(j + 1)) s) (by omega) (by push_cast at h16 ⊢; omega)
    have hb := barBody_sameAnim c i (-(j + 1)) s
    refine ⟨s', ?_, hb.trans hsame, ?_, ?_⟩
    · simp only [barLoop, hdb]
      exact hrun
    · intro k hk
      rcases Nat.eq_zero_or_pos k with hk0 | hkpos
      · subst hk0
        have hne : ∀ k : Nat, k < n → ledPin c (i - (0 : Nat)) ≠ ledPin c (i - 1 - k) := by
          intro k _ h
          rw [ledPin_inj] at h
          omega
        rw [hrest _ hne, barBody_gpio]
        simp
      · obtain ⟨m, rfl⟩ : ∃ m, k = m + 1 := ⟨k - 1, by omega⟩
        have h1 := hlit m (by omega)
        have e1 : i - ((m + 1 : Nat) : Int) = i - 1 - (m : Int) := by push_cast; omega
        have e2 : -(j + ((m + 1 : Nat) : Int) + 1) = -(j + 1 + (m : Int) + 1) := by
          push_cast; omega
        rw [e1, e2, h1, hb.2.2.2.2]
    · intro p hp
      have h1 : ∀ k : Nat, k < n → p ≠ ledPin c (i - 1 - k) := by
        intro k hk
        have := hp (k + 1) (by omega)
        have e1 : i - ((k + 1 : Nat) : Int) = i - 1 - (k : Int) := by push_cast; omega
        rwa [e1] at this
      rw [hrest p h1, barBody_gpio]
      have h0' := hp 0 (by omega)
      simp only [Nat.cast_zero, sub_zero] at h0'
      simp [h0']

theorem clearLoop_spec (c : Config) (n : Nat) : ∀ (i : Int) (s : Meter),
    SameAnim s (clearLoop c n i s) ∧
      (∀ k : Nat, k < n → (clearLoop c n i s).gpio (ledPin c (i + k)) = false) ∧
      (∀ p, (∀ k : Nat, k < n → p ≠ ledPin c (i + k)) →
        (clearLoop c n i s).gpio p = s.gpio p) := by
  induction n with
  | zero =>
    intro i s
    exact ⟨SameAnim.refl s, by intro k hk; omega, by intro p _; rfl⟩
  | succ n ih =>
    intro i s
    obtain ⟨hsame, hoff, hrest⟩ := ih (i + 1) (digitalWrite (ledPin c i) false s)
    refine ⟨(sameAnim_digitalWrite _ _ s).trans hsame, ?_, ?_⟩
    · intro k hk
      rcases Nat.eq_zero_or_pos k with hk0 | hkpos
      · subst hk0
        have hne : ∀ k : Nat, k < n → ledPin c (i + (0 : Nat)) ≠ ledPin c (i + 1 + k) := by
          intro k _ h
          rw [ledPin_inj] at h
          omega
        have := hrest _ hne
        simp only [clearLoop]
        rw [this]
        simp [digitalWrite]
      · obtain ⟨m, rfl⟩ : ∃ m, k = m + 1 := ⟨k - 1, by omega⟩
        have h1 := hoff m (by omega)
        have e1 : i + ((m + 1 : Nat) : Int) = i + 1 + (m : Int) := by push_cast; omega
        simp only [clearLoop]
        rw [e1, h1]
    · intro p hp
      have h1 : ∀ k : Nat, k < n → p ≠ ledPin c (i + 1 + k) := by
        intro k hk
        have := hp (k + 1) (by omega)
        have e1 : i + ((k + 1 : Nat) : Int) = i + 1 + (k : Int) := by push_cast; omega
        rwa [e1] at this
      have h0' := hp 0 (by omega)
      simp only [Nat.cast_zero, add_zero] at h0'
      simp only [clearLoop]
      rw [hrest p h1]
      simp [digitalWrite, h0']

theorem selectLoop_spec (level : Int) (n : Nat) : ∀ (i j : Int) (g : Option Int),
    (n : Int) ≤ j + 1 → j < 16 →
    ∃ r, selectLoop level n i j g = some r ∧
      ((r = g ∧ ∀ k : Nat, k < n → level < -(j - k + 1)) ∨
       (∃ k : Nat, k < n ∧ r = some (i + k) ∧ level ≥ -(j - k + 1) ∧
          ∀ k' : Nat, k < k' → k' < n → level < -(j - k' + 1))) := by
  induction n with
  | zero =>
    intro i j g _ _
    exact ⟨g, rfl, Or.inl ⟨rfl, by intro k hk; omega⟩⟩
  | succ n ih =>
    intro i j g hn h16
    have hdb : dbvalue j = some (-(j + 1)) := dbvalue_eq j (by push_cast at hn; omega) h16
    obtain ⟨r, hrun, hr⟩ := ih (i + 1) (j - 1)
      (if level ≥ -(j + 1) then some i else g) (by push_cast at hn; omega) (by omega)
    refine ⟨r, ?_, ?_⟩
    · simp only [selectLoop, hdb]
      exact hrun
    · rcases hr with ⟨hrg, hall⟩ | ⟨k, hk, hrk, hge, hlater⟩
      · by_cases hlev : level ≥ -(j + 1)
        · right
          refine ⟨0, by omega, ?_, ?_, ?_⟩
          · rw [hrg, if_pos hlev]; simp
          · simpa using hlev
          · intro k' hk0 hk'
            have := hall (k' - 1) (by omega)
            have e : ((k' - 1 : Nat) : Int) = (k' : Int) - 1 := by omega
            rw [e] at this
            omega
        · left
          refine ⟨by rw [hrg, if_neg hlev], ?_⟩
          intro k hk
          rcases Nat.eq_zero_or_pos k with hk0 | hkpos
          · subst hk0
            simp only [Nat.cast_zero, sub_zero]
            omega
          · have := hall (k - 1) (by omega)
            have e : ((k - 1 : Nat) : Int) = (k : Int) - 1 := by omega
            rw [e] at this
            omega
      · right
        refine ⟨k + 1, by omega, ?_, ?_, ?_⟩
        · rw [hrk]; push_cast; congr 1; omega
        · push_cast; omega
        · intro k' hk0 hk'
          have := hlater (k' - 1) (by omega) (by omega)
          have e : ((k' - 1 : Nat) : Int) = (k' : Int) - 1 := by omega
          rw [e] at this
          omega

theorem overlayLoop_spec (c : Config) (n : Nat) : ∀ (i j : Int) (s : Meter),
    0 ≤ j → j + n ≤ 16 →
    (∃ k : Nat, k < n ∧ s.peak_hold_db ≥ -(j + k + 1) ∧
        (∀ k' : Nat, k' < k → s.peak_hold_db < -(j + k' + 1)) ∧
        overlayLoop c n i j s = some (digitalWrite (ledPin c (i - k)) true s)) ∨
    ((∀ k : Nat, k < n → s.peak_hold_db < -(j + k + 1)) ∧ overlayLoop c n i j s = some s) := by
  induction n with
  | zero =>
    intro i j s _ _
    exact Or.inr ⟨by intro k hk; omega, rfl⟩
  | succ n ih =>
    intro i j s h0 h16
    have hdb : dbvalue j = some (-(j + 1)) := dbvalue_eq j h0 (by omega)
    by_cases hp : s.peak_hold_db ≥ -(j + 1)
    · left
      refine ⟨0, by omega, by simpa using hp, by intro k' hk'; omega, ?_⟩
      simp only [overlayLoop, hdb]
      rw [if_pos hp]
      simp
    · have hstep : overlayLoop c (n + 1) i j s = overlayLoop c n (i - 1) (j + 1) s := by
        rw [overlayLoop, hdb]
        exact if_neg hp
      rcases ih (i - 1) (j + 1) s (by omega) (by push_cast at h16 ⊢; omega) with
        ⟨k, hk, hge, hlt, hrun⟩ | ⟨hall, hrun⟩
      · left
        refine ⟨k + 1, by omega, by push_cast; omega, ?_, ?_⟩
        · intro k' hk'
          rcases Nat.eq_zero_or_pos k' with hk0 | hkpos
          · subst hk0
            simp only [Nat.cast_zero, add_zero]
            omega
          · have := hlt (k' - 1) (by omega)
            have e : ((k' - 1 : Nat) : Int) = (k' : Int) - 1 := by omega
            rw [e] at this
            omega
        · rw [hstep, hrun]
          have e : i - 1 - (k : Int) = i - ((k + 1 : Nat) : Int) := by push_cast; omega
          rw [e]
      · right
        refine ⟨?_, by rw [hstep, hrun]⟩
        intro k hk
        rcases Nat.eq_zero_or_pos k with hk0 | hkpos
        · subst hk0
          simp only [Nat.cast_zero, add_zero]
          omega
        · have := hall (k - 1) (by omega)
          have e : ((k - 1 : Nat) : Int) = (k : Int) - 1 := by omega
          rw [e] at this
          omega

theorem animate_attack (c : Config) (db : Int) (s : Meter)
    (h : db ≥ s.lastLEDlevel ∨ c.o_decay = 0) :
    (animate c db s).dtime = 0 ∧ (animate c db s).newLEDlevel = db ∧
    (animate c db s).lastLEDlevel = db ∧ (animate c db s).peak_hold_db = db ∧
    (animate c db s).peak_hold_decay = c.decay_len := by
  unfold animate
  rw [if_pos h]
  exact ⟨rfl, rfl, rfl, rfl, rfl⟩

theorem singleLight_some (c : Config) (s : Meter) (h16 : c.number_of_leds ≤ 16) :
    ∃ s', singleLight c s = some s' ∧ SameAnim s s' := by
  have hclr := (clearLoop_spec c (c.number_of_leds + 1).toNat c.first_led s).1
  by_cases hpos : 1 ≤ c.number_of_leds
  · obtain ⟨r, hrun, _⟩ := selectLoop_spec
      (clearLoop c (c.number_of_leds + 1).toNat c.first_led s).newLEDlevel
      c.number_of_leds.toNat c.first_led (c.number_of_leds - 1) none
      (by rw [Int.toNat_of_nonneg (by omega)]; omega) (by omega)
    unfold singleLight
    simp only [hrun]
    cases r with
    | none => exact ⟨_, rfl, hclr⟩
    | some g => exact ⟨_, rfl, hclr.trans (sameAnim_digitalWrite _ _ _)⟩
  · have hz : c.number_of_leds.toNat = 0 := by
      rw [Int.toNat_eq_zero]; omega
    unfold singleLight
    simp only [hz, selectLoop]
    exact ⟨_, rfl, hclr⟩

theorem renderMain_some (c : Config) (s : Meter) (h16 : c.number_of_leds ≤ 16) :
    ∃ s', renderMain c s = some s' ∧ SameAnim s s' := by
  unfold renderMain
  split
  · exact singleLight_some c s h16
  · obtain ⟨s', hrun, hsame, _⟩ := barLoop_spec c c.number_of_leds.toNat
      (c.first_led + c.number_of_leds - 1) 0 s (le_refl 0) (by
        have h : c.number_of_leds.toNat ≤ 16 := Int.toNat_le.mpr h16
        omega)
    exact ⟨s', hrun, hsame⟩

theorem peakHoldOverlay_some (c : Config) (s : Meter) (h16 : c.number_of_leds ≤ 16) :
    ∃ s', peakHoldOverlay c s = some s' ∧ s'.dtime = s.dtime ∧
      s'.peak_hold_db = s.peak_hold_db ∧ s'.lastLEDlevel = s.lastLEDlevel ∧
      s'.newLEDlevel = s.newLEDlevel ∧
      s'.peak_hold_decay =
        if c.o_peak_hold then wrapInt32 (s.peak_hold_decay - 1) else s.peak_hold_decay := by
  unfold peakHoldOverlay
  by_cases hph : c.o_peak_hold = true
  · simp only [hph, if_true]
    by_cases hd : s.peak_hold_decay > 0
    · rw [if_pos hd]
      have hn : (0 : Int) + (c.number_of_leds.toNat : Int) ≤ 16 := by
        have h : c.number_of_leds.toNat ≤ 16 := Int.toNat_le.mpr h16
        omega
      rcases overlayLoop_spec c c.number_of_leds.toNat (c.first_led + c.number_of_leds - 1) 0
        { s with peak_hold_decay := wrapInt32 (s.peak_hold_decay - 1) } (le_refl 0) hn with
        ⟨k, _, _, _, hrun⟩ | ⟨_, hrun⟩
      · exact ⟨_, hrun, rfl, rfl, rfl, rfl, rfl⟩
      · exact ⟨_, hrun, rfl, rfl, rfl, rfl, rfl⟩
    · rw [if_neg hd]
      exact ⟨_, rfl, rfl, rfl, rfl, rfl, rfl⟩
  · simp only [hph]
    exact ⟨_, rfl, rfl, rfl, rfl, rfl, by simp⟩

theorem display_meter_some (c : Config) (db : Int) (s : Meter)
    (h16 : c.o_stdout = true ∨ c.number_of_leds ≤ 16) :
    ∃ s', display_meter c db s = some s' ∧ s'.dtime = (animate c db s).dtime ∧
      s'.peak_hold_db = (animate c db s).peak_hold_db ∧
      s'.lastLEDlevel = (animate c db s).lastLEDlevel ∧
      s'.newLEDlevel = (animate c db s).newLEDlevel := by
  unfold display_meter
  by_cases hout : c.o_stdout = true
  · simp only [hout, if_true]
    exact ⟨_, rfl, rfl, rfl, rfl, rfl⟩
  · have hN : c.number_of_leds ≤ 16 := by
      rcases h16 with h | h
      · exact absurd h hout
      · exact h
    simp only [hout]
    obtain ⟨s1, hmain, hsame⟩ := renderMain_some c (animate c db s) hN
    obtain ⟨s2, hov, h1, h2, h3, h4, _⟩ := peakHoldOverlay_some c s1 hN
    refine ⟨s2, ?_, ?_, ?_, ?_, ?_⟩
    · simp [hmain, hov]
    · rw [h1, hsame.1]
    · rw [h2, hsame.2.1]
    · rw [h3, hsame.2.2.2.1]
    · rw [h4, hsame.2.2.2.2]

theorem dbvalues_getElem (j : Nat) (h : j < 16) : dbvalues[j]? = some (-((j : Int) + 1)) := by
  interval_cases j <;> rfl

theorem peakHoldOverlay_off (c : Config) (s : Meter) (h : c.o_peak_hold = false) :
    peakHoldOverlay c s = some s := by
  simp [peakHoldOverlay, h]

theorem display_meter_bar (c : Config) (db : Int) (s : Meter)
    (hbar : c.single_light = false) (hph : c.o_peak_hold = false)
    (hout : c.o_stdout = false) (h1 : 1 ≤ c.number_of_leds) (h16 : c.number_of_leds ≤ 16) :
    ∃ s', display_meter c db s = some s' ∧
      s'.newLEDlevel = (animate c db s).newLEDlevel ∧
      ∀ j : Nat, (j : Int) < c.number_of_leds →
        s'.gpio (ledPin c (c.first_led + c.number_of_leds - 1 - j)) =
          decide (s'.newLEDlevel ≥ -((j : Int) + 1)) := by
  have hn : ((c.number_of_leds.toNat : Nat) : Int) = c.number_of_leds :=
    Int.toNat_of_nonneg (by omega)
  obtain ⟨s', hrun, hsame, hlit, _⟩ := barLoop_spec c c.number_of_leds.toNat
    (c.first_led + c.number_of_leds - 1) 0 (animate c db s) (le_refl 0) (by omega)
  refine ⟨s', ?_, hsame.2.2.2.2, ?_⟩
  · simp [display_meter, hout, renderMain, hbar, hrun, peakHoldOverlay_off c s' hph]
  · intro j hj
    have := hlit j (by omega)
    rw [this, hsame.2.2.2.2]
    simp

theorem singleLight_spec (c : Config) (s : Meter)
    (h1 : 1 ≤ c.number_of_leds) (h16 : c.number_of_leds ≤ 16) :
    ∃ s', singleLight c s = some s' ∧ SameAnim s s' ∧
      (((∀ j : Nat, (j : Int) < c.number_of_leds → s.newLEDlevel < -((j : Int) + 1)) ∧
        (∀ m : Nat, (m : Int) < c.number_of_leds →
          s'.gpio (ledPin c (c.first_led + c.number_of_leds - 1 - m)) = false)) ∨
       (∃ j : Nat, (j : Int) < c.number_of_leds ∧ s.newLEDlevel ≥ -((j : Int) + 1) ∧
        (∀ j' : Nat, j' < j → s.newLEDlevel < -((j' : Int) + 1)) ∧
        (∀ m : Nat, (m : Int) < c.number_of_leds →
          (s'.gpio (ledPin c (c.first_led + c.number_of_leds - 1 - m)) = true ↔ m = j)))) := by
  have hn : ((c.number_of_leds.toNat : Nat) : Int) = c.number_of_leds :=
    Int.toNat_of_nonneg (by omega)
  have hn1 : (c.number_of_leds + 1).toNat = c.number_of_leds.toNat + 1 := by omega
  obtain ⟨hclr, hoff, _⟩ := clearLoop_spec c (c.number_of_leds + 1).toNat c.first_led s
  have hoff' : ∀ m : Nat, (m : Int) < c.number_of_leds →
      (clearLoop c (c.number_of_leds + 1).toNat c.first_led s).gpio
        (ledPin c (c.first_led + c.number_of_leds - 1 - m)) = false := by
    intro m hm
    have := hoff (c.number_of_leds.toNat - 1 - m) (by omega)
    have e : c.first_led + ((c.number_of_leds.toNat - 1 - m : Nat) : Int) =
        c.first_led + c.number_of_leds - 1 - m := by omega
    rwa [e] at this
  obtain ⟨r, hrun, hr⟩ := selectLoop_spec
    (clearLoop c (c.number_of_leds + 1).toNat c.first_led s).newLEDlevel
    c.number_of_leds.toNat c.first_led (c.number_of_leds - 1) none (by omega) (by omega)
  rw [hclr.2.2.2.2] at hr
  rcases hr with ⟨hrg, hall⟩ | ⟨k, hk, hrk, hge, hlater⟩
  · refine ⟨_, ?_, hclr, Or.inl ⟨?_, hoff'⟩⟩
    · unfold singleLight
      simp only [hrun, hrg]
    · intro j hj
      have := hall (c.number_of_leds.toNat - 1 - j) (by omega)
      have e : ((c.number_of_leds.toNat - 1 - j : Nat) : Int) = c.number_of_leds - 1 - j := by
        omega
      rw [e] at this
      omega
  · refine ⟨_, ?_, hclr.trans (sameAnim_digitalWrite (ledPin c (c.first_led + k)) true _),
      Or.inr ⟨c.number_of_leds.toNat - 1 - k, by omega, ?_, ?_, ?_⟩⟩
    · unfold singleLight
      simp only [hrun, hrk]
    · have e : ((c.number_of_leds.toNat - 1 - k : Nat) : Int) = c.number_of_leds - 1 - k := by
        omega
      rw [e]
      omega
    · intro j' hj'
      have := hlater (c.number_of_leds.toNat - 1 - j') (by omega) (by omega)
      have e : ((c.number_of_leds.toNat - 1 - j' : Nat) : Int) = c.number_of_leds - 1 - j' := by
        omega
      rw [e] at this
      omega
    · intro m hm
      by_cases hmk : m = c.number_of_leds.toNat - 1 - k
      · subst hmk
        have e : c.first_led + c.number_of_leds - 1 -
            ((c.number_of_leds.toNat - 1 - k : Nat) : Int) = c.first_led + k := by omega
        simp [digitalWrite, e]
      · have hne : ledPin c (c.first_led + c.number_of_leds - 1 - m) ≠
            ledPin c (c.first_led + k) := by
          intro h
          rw [ledPin_inj] at h
          omega
        simp only [digitalWrite, if_neg hne, hoff' m hm]
        simp [hmk]

theorem display_meter_single (c : Config) (db : Int) (s : Meter)
    (hsingle : c.single_light = true) (hph : c.o_peak_hold = false)
    (hout : c.o_stdout = false) (h1 : 1 ≤ c.number_of_leds) (h16 : c.number_of_leds ≤ 16) :
    ∃ s', display_meter c db s = some s' ∧
      s'.newLEDlevel = (animate c db s).newLEDlevel ∧
      (((∀ j : Nat, (j : Int) < c.number_of_leds → s'.newLEDlevel < -((j : Int) + 1)) ∧
        (∀ m : Nat, (m : Int) < c.number_of_leds →
          s'.gpio (ledPin c (c.first_led + c.number_of_leds - 1 - m)) = false)) ∨
       (∃ j : Nat, (j : Int) < c.number_of_leds ∧ s'.newLEDlevel ≥ -((j : Int) + 1) ∧
        (∀ j' : Nat, j' < j → s'.newLEDlevel < -((j' : Int) + 1)) ∧
        (∀ m : Nat, (m : Int) < c.number_of_leds →
          (s'.gpio (ledPin c (c.first_led + c.number_of_leds - 1 - m)) = true ↔ m = j)))) := by
  obtain ⟨s', hrun, hsame, hcases⟩ := singleLight_spec c (animate c db s) h1 h16
  refine ⟨s', ?_, hsame.2.2.2.2, ?_⟩
  · simp [display_meter, hout, renderMain, hsingle, hrun, peakHoldOverlay_off c s' hph]
  · rw [hsame.2.2.2.2]
    exact hcases

theorem runMeter_append (c : Config) : ∀ (xs ys : List Int) (s : Meter),
    runMeter c (xs ++ ys) s = (runMeter c xs s).bind (runMeter c ys) := by
  intro xs
  induction xs with
  | nil => intro ys s; rfl
  | cons x xs ih =>
    intro ys s
    simp only [List.cons_append, runMeter]
    cases display_meter c x s with
    | none => rfl
    | some s1 => exact ih ys s1

theorem runMeter_some (c : Config) (h16 : c.o_stdout = true ∨ c.number_of_leds ≤ 16) :
    ∀ (rs : List Int) (s : Meter), ∃ s', runMeter c rs s = some s' := by
  intro rs
  induction rs with
  | nil => intro s; exact ⟨s, rfl⟩
  | cons r rs ih =>
    intro s
    obtain ⟨s1, h1, _⟩ := display_meter_some c r s h16
    obtain ⟨s2, h2⟩ := ih s1
    exact ⟨s2, by simp [runMeter, h1, h2]⟩

theorem animate_hold (c : Config) (db : Int) (s : Meter)
    (hlow : db < s.lastLEDlevel) (hd : c.o_decay ≠ 0) (ht : s.dtime ≤ c.decay_led) :
    (animate c db s).dtime = s.dtime + 1 ∧ (animate c db s).newLEDlevel = s.newLEDlevel ∧
    (animate c db s).lastLEDlevel = s.newLEDlevel ∧
    (animate c db s).peak_hold_db = s.peak_hold_db ∧
    (animate c db s).peak_hold_decay = s.peak_hold_decay := by
  unfold animate
  rw [if_neg (by rintro (h | h) <;> [omega; exact hd h]), if_neg (by omega)]
  exact ⟨rfl, rfl, rfl, rfl, rfl⟩

theorem animate_step (c : Config) (db : Int) (s : Meter)
    (hlow : db < s.lastLEDlevel) (hd : c.o_decay ≠ 0) (ht : s.dtime > c.decay_led) :
    (animate c db s).dtime = 0 ∧
    (animate c db s).newLEDlevel = max (s.newLEDlevel - c.o_decay) (-144) ∧
    (animate c db s).lastLEDlevel = max (s.newLEDlevel - c.o_decay) (-144) ∧
    (animate c db s).peak_hold_db = s.peak_hold_db ∧
    (animate c db s).peak_hold_decay = s.peak_hold_decay := by
  have hmax : (if s.newLEDlevel - c.o_decay < -144 then (-144 : Int)
      else s.newLEDlevel - c.o_decay) = max (s.newLEDlevel - c.o_decay) (-144) := by
    split <;> omega
  unfold animate
  rw [if_neg (by rintro (h | h) <;> [omega; exact hd h]), if_pos ht]
  exact ⟨rfl, hmax, hmax, rfl, rfl⟩

theorem hold_ticks (c : Config) (h16 : c.o_stdout = true ∨ c.number_of_leds ≤ 16)
    (hd : c.o_decay ≠ 0) (L : Int) : ∀ (rs : List Int) (s : Meter),
    s.lastLEDlevel = L → s.newLEDlevel = L →
    s.dtime + rs.length ≤ c.decay_led + 1 → (∀ r ∈ rs, r < L) →
    ∃ s', runMeter c rs s = some s' ∧ s'.lastLEDlevel = L ∧ s'.newLEDlevel = L ∧
      s'.dtime = s.dtime + rs.length := by
  intro rs
  induction rs with
  | nil =>
    intro s hl hn _ _
    exact ⟨s, rfl, hl, hn, by simp⟩
  | cons r rs ih =>
    intro s hl hn ht hlow
    obtain ⟨s1, h1, d1, _, d3, d4⟩ := display_meter_some c r s h16
    have hr : r < s.lastLEDlevel := by rw [hl]; exact hlow r (List.mem_cons_self _ _)
    have hlen : ((r :: rs).length : Int) = (rs.length : Int) + 1 := by simp
    obtain ⟨a1, a2, a3, _, _⟩ := animate_hold c r s hr hd (by omega)
    obtain ⟨s2, h2, e1, e2, e3⟩ := ih s1 (by rw [d3, a3, hn]) (by rw [d4, a2, hn])
      (by rw [d1, a1]; omega) (fun x hx => hlow x (List.mem_cons_of_mem _ hx))
    refine ⟨s2, by simp [runMeter, h1, h2], e1, e2, ?_⟩
    rw [e3, d1, a1]
    omega

theorem decay_one_period (c : Config) (h16 : c.o_stdout = true ∨ c.number_of_leds ≤ 16)
    (hd : c.o_decay ≠ 0) (n : Nat) (hn : c.decay_led = n) (L : Int) (rs : List Int) (s : Meter)
    (hl : s.lastLEDlevel = L) (hnew : s.newLEDlevel = L) (ht : s.dtime = 0)
    (hlen : rs.length = n + 2) (hlow : ∀ r ∈ rs, r < L) :
    ∃ s', runMeter c rs s = some s' ∧ s'.lastLEDlevel = max (L - c.o_decay) (-144) ∧
      s'.newLEDlevel = max (L - c.o_decay) (-144) ∧ s'.dtime = 0 := by
  have hsplit : rs = rs.take (n + 1) ++ rs.drop (n + 1) := (List.take_append_drop _ _).symm
  have hdrop : (rs.drop (n + 1)).length = 1 := by simp [hlen]
  obtain ⟨r, hr⟩ := List.length_eq_one.mp hdrop
  have htake : (rs.take (n + 1)).length = n + 1 := by simp [hlen]
  obtain ⟨s1, h1, e1, e2, e3⟩ := hold_ticks c h16 hd L (rs.take (n + 1)) s hl hnew
    (by rw [ht, htake, hn]; push_cast; omega)
    (fun x hx => hlow x (List.mem_of_mem_take hx))
  have hrlow : r < s1.lastLEDlevel := by
    rw [e1]
    apply hlow
    rw [hsplit, hr]
    simp
  obtain ⟨s2, h2, d1, _, d3, d4⟩ := display_meter_some c r s1 h16
  obtain ⟨a1, a2, a3, _, _⟩ := animate_step c r s1 hrlow hd
    (by rw [e3, ht, htake, hn]; push_cast; omega)
  refine ⟨s2, ?_, by rw [d3, a3, e2], by rw [d4, a2, e2], by rw [d1, a1]⟩
  rw [hsplit, runMeter_append, h1, hr]
  simp [runMeter, h2]

theorem max_step (a d : Int) (hd : 0 ≤ d) :
    max (max a (-144) - d) (-144) = max (a - d) (-144) := by
  simp only [max_def]
  split_ifs <;> omega

theorem wrapInt32_eq (z : Int) (hlo : -2147483648 ≤ z) (hhi : z ≤ 2147483647) :
    wrapInt32 z = z := by
  unfold wrapInt32
  omega

theorem animate_quiet (c : Config) (db : Int) (s : Meter)
    (hlow : db < s.lastLEDlevel) (hd : c.o_decay ≠ 0) :
    (animate c db s).peak_hold_db = s.peak_hold_db ∧
    (animate c db s).peak_hold_decay = s.peak_hold_decay := by
  by_cases ht : s.dtime > c.decay_led
  · obtain ⟨_, _, _, h4, h5⟩ := animate_step c db s hlow hd ht
    exact ⟨h4, h5⟩
  · obtain ⟨_, _, _, h4, h5⟩ := animate_hold c db s hlow hd (by omega)
    exact ⟨h4, h5⟩

theorem display_meter_hold (c : Config) (db : Int) (s : Meter)
    (hph : c.o_peak_hold = true) (hout : c.o_stdout = false) (h16 : c.number_of_leds ≤ 16) :
    ∃ s', display_meter c db s = some s' ∧
      s'.peak_hold_db = (animate c db s).peak_hold_db ∧
      s'.peak_hold_decay = wrapInt32 ((animate c db s).peak_hold_decay - 1) ∧
      s'.lastLEDlevel = (animate c db s).lastLEDlevel := by
  obtain ⟨m, hm, hsame⟩ := renderMain_some c (animate c db s) h16
  obtain ⟨s', hov, _, h2, h3, _, h5⟩ := peakHoldOverlay_some c m h16
  refine ⟨s', ?_, by rw [h2, hsame.2.1], ?_, by rw [h3, hsame.2.2.2.1]⟩
  · simp [display_meter, hout, hm, hov]
  · rw [h5, if_pos hph, hsame.2.2.1]

theorem overlayCalls_eq (c : Config) (db : Int) (s : Meter) (j : Nat)
    (hph : c.o_peak_hold = true)
    (h1 : 1 ≤ c.number_of_leds) (h16 : c.number_of_leds ≤ 16)
    (hj : (j : Int) < c.number_of_leds)
    (hge : (animate c db s).peak_hold_db ≥ -((j : Int) + 1))
    (hmin : ∀ j' : Nat, j' < j → (animate c db s).peak_hold_db < -((j' : Int) + 1)) :
    overlayCalls c db s = some
      (if (animate c db s).peak_hold_decay > 0 then
        [IOCall.digitalWrite (ledPin c (c.first_led + c.number_of_leds - 1 - j)) true]
       else []) := by
  obtain ⟨m, hm, hsame⟩ := renderMain_some c (animate c db s) h16
  have hn : ((c.number_of_leds.toNat : Nat) : Int) = c.number_of_leds :=
    Int.toNat_of_nonneg (by omega)
  unfold overlayCalls
  rw [hm]
  simp only [Option.some_bind, peakHoldOverlay, hph, if_true]
  rw [hsame.2.2.1]
  by_cases hd : (animate c db s).peak_hold_decay > 0
  · rw [if_pos hd, if_pos hd]
    rcases overlayLoop_spec c c.number_of_leds.toNat (c.first_led + c.number_of_leds - 1) 0
      { m with peak_hold_decay := wrapInt32 ((animate c db s).peak_hold_decay - 1) } (le_refl 0)
      (by omega) with ⟨k, hk, hkge, hklt, hrun⟩ | ⟨hall, _⟩
    · have hdb : ({ m with peak_hold_decay := wrapInt32 ((animate c db s).peak_hold_decay - 1) }
          : Meter).peak_hold_db = (animate c db s).peak_hold_db := hsame.2.1
      rw [hdb] at hkge hklt
      have hkj : k = j := by
        rcases Nat.lt_trichotomy k j with h | h | h
        · have := hmin k h
          omega
        · exact h
        · have := hklt j h
          omega
      subst hkj
      rw [hrun]
      simp [digitalWrite]
    · have hdb : ({ m with peak_hold_decay := wrapInt32 ((animate c db s).peak_hold_decay - 1) }
          : Meter).peak_hold_db = (animate c db s).peak_hold_db := hsame.2.1
      have := hall j (by omega)
      rw [hdb] at this
      omega
  · rw [if_neg hd, if_neg hd]
    simp

theorem staysBelow_run (c : Config) (hph : c.o_peak_hold = true) (hout : c.o_stdout = false)
    (h16 : c.number_of_leds ≤ 16) (hd : c.o_decay ≠ 0) :
    ∀ (t : Nat) (rs : List Int) (s : Meter), staysBelow c rs s = true → t ≤ rs.length →
    s.peak_hold_decay ≤ 2147483647 → -2147483648 ≤ s.peak_hold_decay - t →
    ∃ st, runMeter c (rs.take t) s = some st ∧ st.peak_hold_db = s.peak_hold_db ∧
      st.peak_hold_decay = s.peak_hold_decay - t ∧ staysBelow c (rs.drop t) st = true := by
  intro t
  induction t with
  | zero =>
    intro rs s hq _ _ _
    exact ⟨s, rfl, rfl, by simp, hq⟩
  | succ t ih =>
    intro rs s hq ht hhi hlo
    cases rs with
    | nil => simp at ht
    | cons r rs =>
      obtain ⟨s1, hs1, e1, e2, _⟩ := display_meter_hold c r s hph hout h16
      simp only [staysBelow, hs1, Bool.and_eq_true, decide_eq_true_eq] at hq
      obtain ⟨hq1, hq2⟩ := hq
      obtain ⟨a1, a2⟩ := animate_quiet c r s hq1 hd
      have hstep : s1.peak_hold_decay = s.peak_hold_decay - 1 := by
        rw [e2, a2]
        exact wrapInt32_eq _ (by push_cast at hlo; omega) (by omega)
      obtain ⟨st, hst, f1, f2, f3⟩ := ih rs s1 hq2 (by simpa using ht)
        (by rw [hstep]; omega) (by rw [hstep]; push_cast at hlo; omega)
      refine ⟨st, ?_, by rw [f1, e1, a1], ?_, ?_⟩
      · simp [runMeter, hs1, hst]
      · rw [f2, hstep]; push_cast; omega
      · simpa using f3

theorem sampleOps_standard : sampleOps.Standard := by
  refine ⟨?_, ?_, ?_, ?_, ?_⟩
  · intro x
    cases x <;> simp [sampleOps, FloatVal.mulExact]
  all_goals simp [sampleOps, FloatVal.mulExact]

theorem litThresholds_congr (c : Config) (s s' : Meter) (n : Nat) (h : s'.gpio = s.gpio) :
    litThresholds c s' n = litThresholds c s n := by
  unfold litThresholds
  rw [h]

theorem jackTick_first (fl : FloatOps) (hfl : fl.Standard) (c : Config) (m : Meter)
    (hm : display_meter c 0 Meter.init = some m) :
    jackTick fl c (FloatVal.finite 1) (process_peak [FloatVal.finite 1] Jack.init) =
      some { peak := FloatVal.finite 0, rr_too_high := 0, meter := m } := by
  obtain ⟨h1, h2, _, h4, _⟩ := hfl
  have hp : process_peak [FloatVal.finite 1] Jack.init =
      { Jack.init with peak := FloatVal.finite 1 } := by
    simp [process_peak, Jack.init, FloatVal.fabs, FloatVal.lt]
  rw [hp]
  simp only [jackTick, read_peak, h1, h2, h4]
  have hlt : FloatVal.lt (FloatVal.finite 0) (FloatVal.finite (-144)) = false := by
    simp [FloatVal.lt]
  have hge : FloatVal.ge (FloatVal.finite 0) (FloatVal.finite (-144)) = true := by
    simp [FloatVal.ge]
  have hint : FloatVal.toInt (FloatVal.finite 0) = some 0 := by
    have hf : Rat.floor 0 = 0 := by decide
    simp [FloatVal.toInt, hf]
  simp only [hlt, hge, hint, Bool.false_eq_true, if_false, if_true, Jack.init, hm, Option.map]

theorem jackTick_silent (fl : FloatOps) (hfl : fl.Standard) (c : Config) (s : Jack)
    (hpeak : s.peak = FloatVal.finite 0) :
    ∃ s', jackTick fl c (FloatVal.finite 1) (process_peak [FloatVal.finite 0] s) = some s' ∧
      s'.peak = FloatVal.finite 0 ∧
      s'.rr_too_high = (if s.rr_too_high < 2 then s.rr_too_high + 1 else s.rr_too_high) ∧
      s'.meter = (if s.rr_too_high = 1 then
        { s.meter with calls := IOCall.emptyBufferMessage :: s.meter.calls } else s.meter) := by
  obtain ⟨h1, _, h3, _, h5⟩ := hfl
  have hp : process_peak [FloatVal.finite 0] s = s := by
    simp [process_peak, FloatVal.fabs, FloatVal.lt, hpeak]
  rw [hp]
  have hlt : FloatVal.lt FloatVal.negInf (FloatVal.finite (-144)) = true := rfl
  have hge : FloatVal.ge FloatVal.negInf (FloatVal.finite (-144)) = false := rfl
  simp only [jackTick, read_peak, hpeak, h1, h3, h5, hlt, hge, if_true, Bool.false_eq_true,
    if_false]
  by_cases hr : s.rr_too_high < 2
  · by_cases hr0 : s.rr_too_high > 0
    · have h1' : s.rr_too_high = 1 := by omega
      simp only [hr, hr0, if_true, h1']
      exact ⟨_, rfl, rfl, rfl, rfl⟩
    · have h1' : ¬ s.rr_too_high = 1 := by omega
      simp only [hr, hr0, if_true, if_false, h1']
      exact ⟨_, rfl, rfl, rfl, rfl⟩
  · have h1' : ¬ s.rr_too_high = 1 := by omega
    simp only [hr, if_false, h1']
    exact ⟨_, rfl, rfl, rfl, rfl⟩

theorem jackRun_append (fl : FloatOps) (c : Config) (bias : FloatVal) :
    ∀ (xs ys : List (List FloatVal)) (s : Jack),
    jackRun fl c bias (xs ++ ys) s = (jackRun fl c bias xs s).bind (jackRun fl c bias ys) := by
  intro xs
  induction xs with
  | nil => intro ys s; rfl
  | cons x xs ih =>
    intro ys s
    simp only [List.cons_append, jackRun]
    cases jackTick fl c bias (process_peak x s) with
    | none => rfl
    | some s1 => exact ih ys s1

theorem jackRun_silent (fl : FloatOps) (hfl : fl.Standard) (c : Config) (s : Jack)
    (hpeak : s.peak = FloatVal.finite 0) (hrr : s.rr_too_high = 0) :
    ∀ n : Nat,
    ∃ s', jackRun fl c (FloatVal.finite 1) (List.replicate n [FloatVal.finite 0]) s = some s' ∧
      s'.peak = FloatVal.finite 0 ∧ s'.rr_too_high = min (n : Int) 2 ∧
      s'.meter = { s.meter with
        calls := (if 2 ≤ n then [IOCall.emptyBufferMessage] else []) ++ s.meter.calls } := by
  intro n
  induction n with
  | zero => exact ⟨s, rfl, hpeak, by simp [hrr], rfl⟩
  | succ n ih =>
    obtain ⟨s1, h1, p1, r1, m1⟩ := ih
    obtain ⟨s2, h2, p2, r2, m2⟩ := jackTick_silent fl hfl c s1 p1
    refine ⟨s2, ?_, p2, ?_, ?_⟩
    · rw [List.replicate_succ', jackRun_append, h1]
      simp only [Option.some_bind, jackRun, h2]
    · rw [r2, r1]
      push_cast
      simp only [min_def]
      split_ifs <;> omega
    · rw [m2, r1, m1]
      rcases n with _ | _ | n
      · simp
      · simp
      · have hne : ¬ min (((n + 1 + 1 : Nat)) : Int) 2 = 1 := by
          push_cast
          simp only [min_def]
          split_ifs <;> omega
        rw [if_neg hne]
        simp

theorem jackRun_peak_then_silence (fl : FloatOps) (hfl : fl.Standard) (n : Nat) :
    ∃ m s', display_meter defaultConfig 0 Meter.init = some m ∧
      m.lastLEDlevel = 0 ∧ litThresholds defaultConfig m 8 = [0, 1, 2, 3, 4, 5, 6, 7] ∧
      jackRun fl defaultConfig (FloatVal.finite 1)
        ([FloatVal.finite 1] :: List.replicate n [FloatVal.finite 0]) Jack.init = some s' ∧
      s'.meter = { m with
        calls := (if 2 ≤ n then [IOCall.emptyBufferMessage] else []) ++ m.calls } ∧
      s'.meter.lastLEDlevel = 0 ∧
      litThresholds defaultConfig s'.meter 8 = [0, 1, 2, 3, 4, 5, 6, 7] := by
  obtain ⟨m, hm, hlev, hlit⟩ : ∃ m, display_meter defaultConfig 0 Meter.init = some m ∧
      m.lastLEDlevel = 0 ∧ litThresholds defaultConfig m 8 = [0, 1, 2, 3, 4, 5, 6, 7] :=
    ⟨_, rfl, by decide, by decide⟩
  obtain ⟨s', h2, _, _, hmeter⟩ := jackRun_silent fl hfl defaultConfig
    { peak := FloatVal.finite 0, rr_too_high := 0, meter := m } rfl rfl n
  refine ⟨m, s', hm, hlev, hlit, ?_, hmeter, ?_, ?_⟩
  · simp only [jackRun, jackTick_first fl hfl defaultConfig m hm, Option.some_bind]
    exact h2
  · rw [hmeter]
    exact hlev
  · rw [litThresholds_congr defaultConfig m s'.meter 8 (by rw [hmeter])]
    exact hlit

theorem animate_calls (c : Config) (db : Int) (s : Meter) :
    (animate c db s).calls = s.calls := by
  unfold animate
  split_ifs <;> rfl

theorem barBody_calls_length (c : Config) (i t : Int) (s : Meter) :
    s.calls.length + 1 ≤ (barBody c i t s).calls.length := by
  unfold barBody
  split
  · simp [digitalWrite]
  · simp only [digitalRead]
    split <;> simp [digitalWrite]

theorem barLoop_calls_length (c : Config) (n : Nat) : ∀ (i j : Int) (s s' : Meter),
    barLoop c n i j s = some s' → s.calls.length + n ≤ s'.calls.length := by
  induction n with
  | zero =>
    intro i j s s' h
    simp only [barLoop, Option.some.injEq] at h
    rw [h]
    omega
  | succ n ih =>
    intro i j s s' h
    rw [barLoop] at h
    split at h
    · cases h
    · have h1 := ih _ _ _ _ h
      have h2 := barBody_calls_length c i ‹Int› s
      omega

theorem overlayLoop_calls_length (c : Config) (n : Nat) : ∀ (i j : Int) (s s' : Meter),
    overlayLoop c n i j s = some s' → s.calls.length ≤ s'.calls.length := by
  induction n with
  | zero =>
    intro i j s s' h
    simp only [overlayLoop, Option.some.injEq] at h
    rw [h]
  | succ n ih =>
    intro i j s s' h
    rw [overlayLoop] at h
    split at h
    · cases h
    · split at h
      · cases h
        simp [digitalWrite]
      · exact ih _ _ _ _ h

theorem peakHoldOverlay_calls_length (c : Config) (s s' : Meter)
    (h : peakHoldOverlay c s = some s') : s.calls.length ≤ s'.calls.length := by
  unfold peakHoldOverlay at h
  split at h
  · dsimp only at h
    split at h
    · exact overlayLoop_calls_length c _ _ _
        { s with peak_hold_decay := wrapInt32 (s.peak_hold_decay - 1) } s' h
    · cases h
      exact le_refl _
  · cases h
    exact le_refl _

theorem display_meter_bar_calls_length (c : Config) (db : Int) (s s' : Meter)
    (hbar : c.single_light = false) (hout : c.o_stdout = false)
    (h : display_meter c db s = some s') :
    s.calls.length + c.number_of_leds.toNat ≤ s'.calls.length := by
  unfold display_meter at h
  simp only [hout, Bool.false_eq_true, if_false, renderMain, hbar] at h
  cases hm : barLoop c c.number_of_leds.toNat (c.first_led + c.number_of_leds - 1) 0
      (animate c db s) with
  | none => rw [hm] at h; cases h
  | some m =>
    rw [hm] at h
    have h1 := barLoop_calls_length c _ _ _ _ _ hm
    have h2 := peakHoldOverlay_calls_length c m s' h
    rw [animate_calls] at h1
    omega

theorem clearLoop_calls (c : Config) (n : Nat) : ∀ (i : Int) (s : Meter),
    (∀ e ∈ s.calls, e ∈ (clearLoop c n i s).calls) ∧
    (∀ k : Nat, k < n →
      IOCall.digitalWrite (ledPin c (i + k)) false ∈ (clearLoop c n i s).calls) := by
  induction n with
  | zero =>
    intro i s
    exact ⟨fun e he => he, by intro k hk; omega⟩
  | succ n ih =>
    intro i s
    obtain ⟨hkeep, hnew⟩ := ih (i + 1) (digitalWrite (ledPin c i) false s)
    refine ⟨?_, ?_⟩
    · intro e he
      exact hkeep e (List.mem_cons_of_mem _ he)
    · intro k hk
      rcases Nat.eq_zero_or_pos k with hk0 | hkpos
      · subst hk0
        simp only [Nat.cast_zero, add_zero]
        exact hkeep _ (List.mem_cons_self _ _)
      · have := hnew (k - 1) (by omega)
        have e1 : i + 1 + ((k - 1 : Nat) : Int) = i + (k : Int) := by omega
        rwa [e1] at this

theorem singleLight_calls (c : Config) (s : Meter) (h16 : c.number_of_leds ≤ 16) :
    ∃ s', singleLight c s = some s' ∧
      ∀ e ∈ (clearLoop c (c.number_of_leds + 1).toNat c.first_led s).calls, e ∈ s'.calls := by
  obtain ⟨s', hrun, _⟩ := singleLight_some c s h16
  refine ⟨s', hrun, ?_⟩
  unfold singleLight at hrun
  dsimp only at hrun
  split at hrun
  · cases hrun
  · cases hrun
    exact fun e he => he
  · cases hrun
    exact fun e he => List.mem_cons_of_mem _ he

theorem peakHoldOverlay_calls (c : Config) (s : Meter) (h16 : c.number_of_leds ≤ 16) :
    ∃ s', peakHoldOverlay c s = some s' ∧ ∀ e ∈ s.calls, e ∈ s'.calls := by
  unfold peakHoldOverlay
  by_cases hph : c.o_peak_hold = true
  · simp only [hph, if_true]
    by_cases hd : s.peak_hold_decay > 0
    · rw [if_pos hd]
      have hn : (0 : Int) + (c.number_of_leds.toNat : Int) ≤ 16 := by
        have h : c.number_of_leds.toNat ≤ 16 := Int.toNat_le.mpr h16
        omega
      rcases overlayLoop_spec c c.number_of_leds.toNat (c.first_led + c.number_of_leds - 1) 0
        { s with peak_hold_decay := wrapInt32 (s.peak_hold_decay - 1) } (le_refl 0) hn with
        ⟨k, _, _, _, hrun⟩ | ⟨_, hrun⟩
      · exact ⟨_, hrun, fun e he => List.mem_cons_of_mem _ he⟩
      · exact ⟨_, hrun, fun e he => he⟩
    · rw [if_neg hd]
      exact ⟨_, rfl, fun e he => he⟩
  · simp only [hph]
    exact ⟨_, rfl, fun e he => he⟩

/-! ## The animator -/

/-- C1. Attack: whenever `display_meter` is called with a reading `r` that is at
least the displayed level `lastLEDlevel` (ties included), the call returns and
afterwards `newLEDlevel = lastLEDlevel = r`, `dtime = 0` and `peak_hold_db = r`.
This holds for every state and every value of `o_decay`, in particular for all
of 0..10; the only side condition is that the LED count does not run past the
16-entry table when LEDs are driven. -/
theorem display_meter_attack (c : Config) (s : Meter) (r : Int)
    (hr : r ≥ s.lastLEDlevel)
    (h16 : c.o_stdout = true ∨ c.number_of_leds ≤ 16) :
    ∃ s', display_meter c r s = some s' ∧ s'.newLEDlevel = r ∧ s'.lastLEDlevel = r ∧
      s'.dtime = 0 ∧ s'.peak_hold_db = r := by
  obtain ⟨s', hrun, h1, h2, h3, h4⟩ := display_meter_some c r s h16
  obtain ⟨a1, a2, a3, a4, _⟩ := animate_attack c r s (Or.inl hr)
  exact ⟨s', hrun, h4.trans a2, h3.trans a3, h1.trans a1, h2.trans a4⟩

theorem display_meter_attack_witness :
    (-3 : Int) ≥ ({ Meter.init with lastLEDlevel := -3, newLEDlevel := -3 } : Meter).lastLEDlevel ∧
    ∃ s', display_meter { defaultConfig with o_decay := 0 } (-3)
        { Meter.init with lastLEDlevel := -3, newLEDlevel := -3 } = some s' ∧
      s'.newLEDlevel = -3 ∧ s'.lastLEDlevel = -3 ∧ s'.dtime = 0 ∧ s'.peak_hold_db = -3 :=
  ⟨by decide, display_meter_attack _ _ _ (by decide) (Or.inr (by decide))⟩

/-- C2 as stated fails: with `o_decay = 0` the readings 0 then -10 take the
displayed level from 0 down to -10. -/
theorem no_decay_counterexample :
    ∃ s1 s2, display_meter { defaultConfig with o_decay := 0 } 0 Meter.init = some s1 ∧
      display_meter { defaultConfig with o_decay := 0 } (-10) s1 = some s2 ∧
      s1.lastLEDlevel = 0 ∧ s2.lastLEDlevel = -10 ∧ s2.lastLEDlevel < s1.lastLEDlevel :=
  ⟨_, _, rfl, rfl, by decide, by decide, by decide⟩

/-- C2 amended. With `o_decay = 0` the display takes no decay steps at all: for
every sequence of readings fed one per tick, the displayed level after each tick
equals the reading of that tick (here: after any earlier readings `pre` and then
`r`, the level is `r`). It therefore falls whenever the reading falls. -/
theorem no_decay_tracks_reading (c : Config) (pre : List Int) (r : Int) (s : Meter)
    (h0 : c.o_decay = 0) (h16 : c.o_stdout = true ∨ c.number_of_leds ≤ 16) :
    ∃ s', runMeter c (pre ++ [r]) s = some s' ∧ s'.lastLEDlevel = r ∧ s'.newLEDlevel = r := by
  obtain ⟨s1, h1⟩ := runMeter_some c h16 pre s
  obtain ⟨s2, h2, _, _, hlast, hnew⟩ := display_meter_some c r s1 h16
  obtain ⟨_, a2, a3, _, _⟩ := animate_attack c r s1 (Or.inr h0)
  refine ⟨s2, ?_, hlast.trans a3, hnew.trans a2⟩
  rw [runMeter_append, h1]
  simp [runMeter, h2]

theorem no_decay_tracks_reading_witness :
    ∃ s', runMeter { defaultConfig with o_decay := 0 } ([0] ++ [-10]) Meter.init = some s' ∧
      s'.lastLEDlevel = -10 ∧ s'.newLEDlevel = -10 :=
  no_decay_tracks_reading { defaultConfig with o_decay := 0 } [0] (-10) Meter.init rfl
    (Or.inr (by decide))

/-- C3 at the input named in the claim (`h = 0`, reading -80, `decay_led = 2`,
`o_decay = 4`): after `decay_led * 1 = 2` ticks the displayed level is still 0,
not `max (0 - 1 * 4) (-144) = -4`; after `decay_led * 2 = 4` ticks it is -4, not
-8. The first step comes with tick `decay_led + 2`. -/
theorem decay_window_evaluation :
    defaultConfig.decay_led = 2 ∧ defaultConfig.o_decay = 4 ∧
    (runMeter defaultConfig (List.replicate 2 (-80)) (Meter.showing 0)).map
      Meter.lastLEDlevel = some 0 ∧
    (runMeter defaultConfig (List.replicate 3 (-80)) (Meter.showing 0)).map
      Meter.lastLEDlevel = some 0 ∧
    (runMeter defaultConfig (List.replicate 4 (-80)) (Meter.showing 0)).map
      Meter.lastLEDlevel = some (-4) ∧
    max ((0 : Int) - 1 * 4) (-144) = -4 ∧ max ((0 : Int) - 2 * 4) (-144) = -8 := by
  refine ⟨by decide, by decide, ?_, ?_, ?_, by decide, by decide⟩ <;> decide

/-- What the decay branch of `display_meter` does (lines 201-207): from a state
that shows `h` with the counter at 0, under readings that stay below the
displayed level, the level drops by `o_decay` once every `decay_led + 2` ticks:
after `(decay_led + 2) * k` ticks it is `max (h - k * o_decay) (-144)`. -/
theorem decay_every_window_plus_two (c : Config)
    (h16 : c.o_stdout = true ∨ c.number_of_leds ≤ 16)
    (hd : 0 < c.o_decay) (n : Nat) (hn : c.decay_led = n) (h : Int) (hfloor : -144 ≤ h) :
    ∀ (k : Nat) (rs : List Int) (s : Meter),
    s.lastLEDlevel = h → s.newLEDlevel = h → s.dtime = 0 →
    rs.length = (n + 2) * k → (∀ r ∈ rs, r < max (h - k * c.o_decay) (-144)) →
    ∃ s', runMeter c rs s = some s' ∧ s'.lastLEDlevel = max (h - k * c.o_decay) (-144) ∧
      s'.newLEDlevel = max (h - k * c.o_decay) (-144) ∧ s'.dtime = 0 := by
  intro k
  induction k with
  | zero =>
    intro rs s hl hnew ht hlen _
    have : rs = [] := List.length_eq_zero.mp (by simpa using hlen)
    subst this
    have hmax : max (h - ((0 : Nat) : Int) * c.o_decay) (-144) = h := by
      simp only [Nat.cast_zero, zero_mul, sub_zero]
      exact max_eq_left hfloor
    exact ⟨s, rfl, by rw [hmax, hl], by rw [hmax, hnew], ht⟩
  | succ k ih =>
    intro rs s hl hnew ht hlen hlow
    have hmul : (((k + 1 : Nat) : Int)) * c.o_decay = (k : Int) * c.o_decay + c.o_decay := by
      push_cast; ring
    rw [hmul] at hlow ⊢
    have hle : max (h - ((k : Int) * c.o_decay + c.o_decay)) (-144) ≤
        max (h - (k : Int) * c.o_decay) (-144) := by
      apply max_le_max _ (le_refl _)
      omega
    have hsplit : rs = rs.take ((n + 2) * k) ++ rs.drop ((n + 2) * k) :=
      (List.take_append_drop _ _).symm
    have htake : (rs.take ((n + 2) * k)).length = (n + 2) * k := by
      rw [List.length_take, hlen]
      apply Nat.min_eq_left
      rw [Nat.mul_succ]
      omega
    have hdrop : (rs.drop ((n + 2) * k)).length = n + 2 := by
      rw [List.length_drop, hlen, Nat.mul_succ]
      omega
    obtain ⟨s1, h1, e1, e2, e3⟩ := ih (rs.take ((n + 2) * k)) s hl hnew ht htake
      (fun r hr => lt_of_lt_of_le (hlow r (List.mem_of_mem_take hr)) hle)
    obtain ⟨s2, h2, f1, f2, f3⟩ := decay_one_period c h16 (by omega) n hn
      (max (h - (k : Int) * c.o_decay) (-144)) (rs.drop ((n + 2) * k)) s1 e1 e2 e3 hdrop
      (fun r hr => lt_of_lt_of_le (hlow r (List.mem_of_mem_drop hr)) hle)
    have hstep : max (max (h - (k : Int) * c.o_decay) (-144) - c.o_decay) (-144) =
        max (h - ((k : Int) * c.o_decay + c.o_decay)) (-144) := by
      rw [max_step _ _ (by omega)]
      congr 1
      omega
    refine ⟨s2, ?_, by rw [f1, hstep], by rw [f2, hstep], f3⟩
    rw [hsplit, runMeter_append, h1]
    exact h2

theorem decay_every_window_plus_two_witness :
    ∃ s', runMeter defaultConfig (List.replicate 8 (-80)) (Meter.showing 0) = some s' ∧
      s'.lastLEDlevel = max (0 - ((2 : Nat) : Int) * defaultConfig.o_decay) (-144) ∧
      s'.newLEDlevel = max (0 - ((2 : Nat) : Int) * defaultConfig.o_decay) (-144) ∧
      s'.dtime = 0 :=
  decay_every_window_plus_two defaultConfig (Or.inr (by decide)) (by decide) 2 (by decide) 0
    (by decide) 2 (List.replicate 8 (-80)) (Meter.showing 0) rfl rfl rfl rfl
    (by intro r hr; rw [List.eq_of_mem_replicate hr]; decide)

/-! ## The LED patterns -/

/-- C4. Bar mode: with `single_light` and `o_peak_hold` off and 1..16 LEDs, a
rendering call of `display_meter` returns, and afterwards the LED of threshold
`dbvalues[j]` (pin `first_led + N - 1 - j`, behind the shift register `100 +`
that) is on exactly when the displayed level `newLEDlevel` is at least
`dbvalues[j]`; hence a lit threshold has every lower threshold among the N lit
as well, one run from the low end. -/
theorem bar_mode_rule (c : Config) (db : Int) (s : Meter)
    (hbar : c.single_light = false) (hph : c.o_peak_hold = false)
    (hout : c.o_stdout = false) (h1 : 1 ≤ c.number_of_leds) (h16 : c.number_of_leds ≤ 16) :
    ∃ s', display_meter c db s = some s' ∧
      (∀ j : Nat, (j : Int) < c.number_of_leds →
        ∃ t, dbvalues[j]? = some t ∧
          (s'.gpio (ledPin c (c.first_led + c.number_of_leds - 1 - j)) = true ↔
            s'.newLEDlevel ≥ t)) ∧
      (∀ j j' : Nat, j ≤ j' → (j' : Int) < c.number_of_leds →
        s'.gpio (ledPin c (c.first_led + c.number_of_leds - 1 - j)) = true →
        s'.gpio (ledPin c (c.first_led + c.number_of_leds - 1 - j')) = true) := by
  obtain ⟨s', hrun, _, hpins⟩ := display_meter_bar c db s hbar hph hout h1 h16
  refine ⟨s', hrun, ?_, ?_⟩
  · intro j hj
    refine ⟨-((j : Int) + 1), dbvalues_getElem j (by omega), ?_⟩
    rw [hpins j hj]
    simp
  · intro j j' hjj hj' hon
    rw [hpins j (by omega)] at hon
    rw [hpins j' hj']
    simp only [decide_eq_true_eq] at hon ⊢
    omega

theorem bar_mode_rule_witness :
    ∃ s', display_meter defaultConfig (-3) Meter.init = some s' ∧
      (∀ j : Nat, (j : Int) < defaultConfig.number_of_leds →
        ∃ t, dbvalues[j]? = some t ∧
          (s'.gpio (ledPin defaultConfig
              (defaultConfig.first_led + defaultConfig.number_of_leds - 1 - j)) = true ↔
            s'.newLEDlevel ≥ t)) ∧
      (∀ j j' : Nat, j ≤ j' → (j' : Int) < defaultConfig.number_of_leds →
        s'.gpio (ledPin defaultConfig
            (defaultConfig.first_led + defaultConfig.number_of_leds - 1 - j)) = true →
        s'.gpio (ledPin defaultConfig
            (defaultConfig.first_led + defaultConfig.number_of_leds - 1 - j')) = true) :=
  bar_mode_rule defaultConfig (-3) Meter.init rfl rfl rfl (by decide) (by decide)

/-- C5 as stated fails: at displayed level -3 with 8 LEDs in bar mode the LEDs
of thresholds -1 and -2 (indices 0, 1) are off and six LEDs are on, those of
indices 2..7, thresholds -3 .. -8. -/
theorem bar_example_counterexample :
    ∃ s', display_meter defaultConfig (-3) (Meter.showing (-3)) = some s' ∧
      s'.newLEDlevel = -3 ∧ litThresholds defaultConfig s' 8 = [2, 3, 4, 5, 6, 7] ∧
      ¬ ((litThresholds defaultConfig s' 8).length = 3) := by
  refine ⟨_, rfl, ?_, ?_, ?_⟩ <;> decide

/-- C5 amended. Bar mode at displayed level -3 with the 1 dB table and 8 LEDs,
peak hold off: the LED of threshold `dbvalues[j]` is on exactly for
`2 ≤ j < 8`, the six thresholds -3, -4, ..., -8 that the level reaches; the
LEDs of -1 and -2 are off. -/
theorem bar_example (c : Config) (db : Int) (s : Meter)
    (hbar : c.single_light = false) (hph : c.o_peak_hold = false)
    (hout : c.o_stdout = false) (h8 : c.number_of_leds = 8)
    (hL : (animate c db s).newLEDlevel = -3) :
    ∃ s', display_meter c db s = some s' ∧ s'.newLEDlevel = -3 ∧
      (∀ j : Nat, j < 8 →
        (s'.gpio (ledPin c (c.first_led + c.number_of_leds - 1 - j)) = true ↔ 2 ≤ j)) ∧
      litThresholds c s' 8 = [2, 3, 4, 5, 6, 7] := by
  obtain ⟨s', hrun, hlev, hpins⟩ :=
    display_meter_bar c db s hbar hph hout (by omega) (by omega)
  have hlev3 : s'.newLEDlevel = -3 := hlev.trans hL
  have hp : ∀ j : Nat, j < 8 →
      s'.gpio (ledPin c (c.first_led + c.number_of_leds - 1 - j)) = decide (2 ≤ j) := by
    intro j hj
    rw [hpins j (by omega), hlev3]
    congr 1
    apply propext
    constructor <;> intro h <;> omega
  refine ⟨s', hrun, hlev3, ?_, ?_⟩
  · intro j hj
    rw [hp j hj]
    simp
  · have hfilter : litThresholds c s' 8 = (List.range 8).filter (fun j => decide (2 ≤ j)) := by
      unfold litThresholds
      apply List.filter_congr
      intro j hj
      exact hp j (List.mem_range.mp hj)
    rw [hfilter]
    rfl

theorem bar_example_witness :
    ∃ s', display_meter defaultConfig (-3) (Meter.showing (-3)) = some s' ∧
      s'.newLEDlevel = -3 ∧
      (∀ j : Nat, j < 8 →
        (s'.gpio (ledPin defaultConfig
          (defaultConfig.first_led + defaultConfig.number_of_leds - 1 - j)) = true ↔ 2 ≤ j)) ∧
      litThresholds defaultConfig s' 8 = [2, 3, 4, 5, 6, 7] :=
  bar_example defaultConfig (-3) (Meter.showing (-3)) rfl rfl rfl rfl (by decide)

/-- C6. Single-light mode: with `single_light` on, `o_peak_hold` off and 1..16
LEDs, a rendering call of `display_meter` returns, and afterwards: if the
displayed level satisfies some threshold among the first N, then with `j` the
smallest satisfied index (the highest satisfied threshold) the LED of index `m`
(pin `first_led + N - 1 - m`, behind the shift register `100 +` that) is on
exactly for `m = j`, so exactly one of the N LEDs is on; if the level satisfies
none of the N thresholds, all N LEDs are off. -/
theorem single_light_rule (c : Config) (db : Int) (s : Meter)
    (hsingle : c.single_light = true) (hph : c.o_peak_hold = false)
    (hout : c.o_stdout = false) (h1 : 1 ≤ c.number_of_leds) (h16 : c.number_of_leds ≤ 16) :
    ∃ s', display_meter c db s = some s' ∧
      (∀ (j : Nat) (t : Int), (j : Int) < c.number_of_leds → dbvalues[j]? = some t →
        s'.newLEDlevel ≥ t →
        (∀ (j' : Nat) (t' : Int), j' < j → dbvalues[j']? = some t' → s'.newLEDlevel < t') →
        ∀ m : Nat, (m : Int) < c.number_of_leds →
          (s'.gpio (ledPin c (c.first_led + c.number_of_leds - 1 - m)) = true ↔ m = j)) ∧
      ((∀ (j : Nat) (t : Int), (j : Int) < c.number_of_leds → dbvalues[j]? = some t →
          s'.newLEDlevel < t) →
        ∀ m : Nat, (m : Int) < c.number_of_leds →
          s'.gpio (ledPin c (c.first_led + c.number_of_leds - 1 - m)) = false) := by
  obtain ⟨s', hrun, _, hcases⟩ := display_meter_single c db s hsingle hph hout h1 h16
  refine ⟨s', hrun, ?_, ?_⟩
  · intro j t hj ht hge hlow m hm
    have htj : t = -((j : Int) + 1) := by
      have := dbvalues_getElem j (by omega)
      rw [ht] at this
      exact Option.some.inj this
    rcases hcases with ⟨hnone, _⟩ | ⟨j0, hj0, hge0, hlow0, hpins⟩
    · have := hnone j hj
      omega
    · have hjj : j0 = j := by
        rcases Nat.lt_trichotomy j0 j with h | h | h
        · have := hlow j0 _ h (dbvalues_getElem j0 (by omega))
          omega
        · exact h
        · have := hlow0 j h
          omega
      rw [← hjj]
      exact hpins m hm
  · intro hnone m hm
    rcases hcases with ⟨_, hoff⟩ | ⟨j0, hj0, hge0, _, _⟩
    · exact hoff m hm
    · have := hnone j0 _ hj0 (dbvalues_getElem j0 (by omega))
      omega

theorem single_light_rule_witness :
    (∃ s', display_meter singleLightConfig (-3) (Meter.showing (-3)) = some s' ∧
      (∀ (j : Nat) (t : Int), (j : Int) < singleLightConfig.number_of_leds →
        dbvalues[j]? = some t → s'.newLEDlevel ≥ t →
        (∀ (j' : Nat) (t' : Int), j' < j → dbvalues[j']? = some t' → s'.newLEDlevel < t') →
        ∀ m : Nat, (m : Int) < singleLightConfig.number_of_leds →
          (s'.gpio (ledPin singleLightConfig
            (singleLightConfig.first_led + singleLightConfig.number_of_leds - 1 - m)) = true ↔
              m = j)) ∧
      ((∀ (j : Nat) (t : Int), (j : Int) < singleLightConfig.number_of_leds →
          dbvalues[j]? = some t → s'.newLEDlevel < t) →
        ∀ m : Nat, (m : Int) < singleLightConfig.number_of_leds →
          s'.gpio (ledPin singleLightConfig
            (singleLightConfig.first_led + singleLightConfig.number_of_leds - 1 - m)) = false)) ∧
    (∃ s', display_meter singleLightConfig (-3) (Meter.showing (-3)) = some s' ∧
      s'.newLEDlevel = -3 ∧ litThresholds singleLightConfig s' 8 = [2]) :=
  ⟨single_light_rule singleLightConfig (-3) (Meter.showing (-3)) rfl rfl rfl
      (by decide) (by decide),
    ⟨_, rfl, by decide, by decide⟩⟩

/-! ## Peak hold -/

set_option maxRecDepth 100000 in
/-- C7 as stated fails, in two ways. With `-p` at the default rate the hold
duration is `decay_len = 64`. (a) After a tick latching -1, under 63 and then
a 64th reading of -80, the overlay is still written on following tick 63 (to
pin 7, the LED of threshold -1) and no longer on following tick 64. (b) After
the same latch and four readings of -80 the display has decayed to -5; a fifth
reading of -5, not higher than -1, latches again and the overlay goes to pin 3,
the LED of threshold -5, with 59 ticks of the hold left. -/
theorem peak_hold_counterexample :
    peakHoldConfig.decay_len = 64 ∧
    (runMeter peakHoldConfig (-1 :: List.replicate 62 (-80)) (Meter.showing (-20))).bind
      (overlayCalls peakHoldConfig (-80)) = some [IOCall.digitalWrite 7 true] ∧
    (runMeter peakHoldConfig (-1 :: List.replicate 63 (-80)) (Meter.showing (-20))).bind
      (overlayCalls peakHoldConfig (-80)) = some [] ∧
    (runMeter peakHoldConfig (-1 :: List.replicate 4 (-80)) (Meter.showing (-20))).bind
      (overlayCalls peakHoldConfig (-5)) = some [IOCall.digitalWrite 3 true] := by
  refine ⟨by decide, ?_, ?_, ?_⟩ <;> decide


/-- C7 amended. Peak hold with `o_peak_hold` on, LEDs driven, 1..16 LEDs,
`o_decay` not 0 and `decay_len` a C `int`. Let a tick latch the peak-hold level
to `p` (reading `p` at least the displayed level), let `j` be the highest
threshold that `p` satisfies among the N, and let every later reading be below
the level on display when it arrives, so that no tick latches again. Number the
ticks from the latching tick, which is tick 0. Then on tick `t` the overlay
writes the LED of threshold `j` exactly when `t < decay_len`: on the latching
tick and on the `decay_len - 1` ticks after it, `decay_len` ticks in all, and
not on tick `decay_len` nor on any later tick up to tick `decay_len + 2^31`,
the last tick before the 32-bit counter `peak_hold_decay`, which line 254
decrements on every call, has wrapped around. -/
theorem peak_hold_window (c : Config) (s0 s1 : Meter) (p : Int) (rs : List Int) (j : Nat)
    (hph : c.o_peak_hold = true) (hout : c.o_stdout = false)
    (h1 : 1 ≤ c.number_of_leds) (h16 : c.number_of_leds ≤ 16) (hd : c.o_decay ≠ 0)
    (hlen : c.decay_len ≤ 2147483647)
    (hlatch : p ≥ s0.lastLEDlevel)
    (hj : (j : Int) < c.number_of_leds) (t0 : Int) (ht0 : dbvalues[j]? = some t0)
    (hge : p ≥ t0)
    (hmin : ∀ (j' : Nat) (t' : Int), j' < j → dbvalues[j']? = some t' → p < t')
    (hs1 : display_meter c p s0 = some s1) (hquiet : staysBelow c rs s1 = true) :
    ∀ t : Nat, t ≤ rs.length → (t : Int) ≤ c.decay_len + 2147483648 →
      ∃ st db, runMeter c ((p :: rs).take t) s0 = some st ∧ (p :: rs)[t]? = some db ∧
        overlayCalls c db st = some
          (if (t : Int) < c.decay_len then
            [IOCall.digitalWrite (ledPin c (c.first_led + c.number_of_leds - 1 - j)) true]
           else []) := by
  have ht0' : t0 = -((j : Int) + 1) := by
    have := dbvalues_getElem j (by omega)
    rw [ht0] at this
    exact Option.some.inj this
  have hmin' : ∀ j' : Nat, j' < j → p < -((j' : Int) + 1) := fun j' hj' =>
    hmin j' _ hj' (dbvalues_getElem j' (by omega))
  obtain ⟨a1, a2, a3, a4, a5⟩ := animate_attack c p s0 (Or.inl hlatch)
  intro t ht hwrap
  cases t with
  | zero =>
    refine ⟨s0, p, rfl, by simp, ?_⟩
    rw [overlayCalls_eq c p s0 j hph h1 h16 hj (by rw [a4]; omega)
      (by intro j' hj'; rw [a4]; exact hmin' j' hj'), a5]
    simp
  | succ t =>
    push_cast at hwrap
    obtain ⟨s1', hs1', e1, e2, _⟩ := display_meter_hold c p s0 hph hout h16
    rw [hs1] at hs1'
    cases hs1'
    have hs1d : s1.peak_hold_decay = c.decay_len - 1 := by
      rw [e2, a5]
      exact wrapInt32_eq _ (by omega) (by omega)
    obtain ⟨st, hst, f1, f2, f3⟩ := staysBelow_run c hph hout h16 hd t rs s1 hquiet (by omega)
      (by rw [hs1d]; omega) (by rw [hs1d]; omega)
    have hlt : t < rs.length := by omega
    have hdrop : rs.drop t = rs[t] :: rs.drop (t + 1) := by
      rw [List.drop_eq_getElem_cons hlt]
    rw [hdrop] at f3
    simp only [staysBelow, Bool.and_eq_true, decide_eq_true_eq] at f3
    obtain ⟨q1, q2⟩ := animate_quiet c rs[t] st f3.1 hd
    refine ⟨st, rs[t], ?_, ?_, ?_⟩
    · simp [runMeter, hs1, hst]
    · simp [List.getElem?_eq_getElem hlt]
    · rw [overlayCalls_eq c rs[t] st j hph h1 h16 hj (by rw [q1, f1, e1, a4]; omega)
        (by intro j' hj'; rw [q1, f1, e1, a4]; exact hmin' j' hj'), q2, f2, hs1d]
      have hiff : (c.decay_len - 1 - (t : Int) > 0) ↔ (((t + 1 : Nat) : Int) < c.decay_len) := by
        push_cast; omega
      simp only [hiff]

theorem peak_hold_window_witness :
    (∃ st db, runMeter peakHoldRate2Config ((-1 :: List.replicate 5 (-80)).take 2)
        (Meter.showing (-20)) = some st ∧
      (-1 :: List.replicate 5 (-80))[2]? = some db ∧
      overlayCalls peakHoldRate2Config db st = some
        (if ((2 : Nat) : Int) < peakHoldRate2Config.decay_len then
          [IOCall.digitalWrite (ledPin peakHoldRate2Config
            (peakHoldRate2Config.first_led + peakHoldRate2Config.number_of_leds - 1 -
              ((0 : Nat) : Int))) true]
         else [])) ∧
    (∃ st db, runMeter peakHoldRate2Config ((-1 :: List.replicate 5 (-80)).take 3)
        (Meter.showing (-20)) = some st ∧
      (-1 :: List.replicate 5 (-80))[3]? = some db ∧
      overlayCalls peakHoldRate2Config db st = some
        (if ((3 : Nat) : Int) < peakHoldRate2Config.decay_len then
          [IOCall.digitalWrite (ledPin peakHoldRate2Config
            (peakHoldRate2Config.first_led + peakHoldRate2Config.number_of_leds - 1 -
              ((0 : Nat) : Int))) true]
         else [])) :=
  ⟨peak_hold_window peakHoldRate2Config (Meter.showing (-20))
      _ (-1) (List.replicate 5 (-80)) 0 rfl rfl (by decide) (by decide) (by decide) (by decide)
      (by decide) (by decide) (-1) (by decide) (by decide) (by intro j' t' hj'; omega) rfl
      (by decide) 2 (by decide) (by decide),
    peak_hold_window peakHoldRate2Config (Meter.showing (-20))
      _ (-1) (List.replicate 5 (-80)) 0 rfl rfl (by decide) (by decide) (by decide) (by decide)
      (by decide) (by decide) (-1) (by decide) (by decide) (by intro j' t' hj'; omega) rfl
      (by decide) 3 (by decide) (by decide)⟩

/-- The bound in `peak_hold_window` is where the hold counter wraps: a call that
finds `peak_hold_decay` at -2147483648 writes no overlay and leaves the counter
at 2147483647, and the next call writes the overlay again (here to pin 7, the
LED of threshold -1). -/
theorem hold_counter_wraps :
    ∃ s1, display_meter peakHoldConfig (-80)
        { Meter.showing 0 with peak_hold_db := -1, peak_hold_decay := -2147483648 } = some s1 ∧
      overlayCalls peakHoldConfig (-80)
        { Meter.showing 0 with peak_hold_db := -1, peak_hold_decay := -2147483648 } = some [] ∧
      s1.peak_hold_decay = 2147483647 ∧
      overlayCalls peakHoldConfig (-80) s1 = some [IOCall.digitalWrite 7 true] :=
  ⟨_, rfl, by decide, by decide, by decide⟩

/-! ## The tick loop, pin range and startup -/

/-- C8 as stated fails. With default options (rate 40, `o_decay = 4`, bias 1,
bar mode, 8 LEDs, `decay_led = 2`) and per-tick peaks 1.0, 0.0, 0.0, ...: after
the first tick and `decay_led = 2` further ticks the displayed level is 0, not
-4, and after 1000 further ticks it is still 0 with all 8 LEDs on, not -144 with
all off. A peak of 0.0 gives `db = -inf`, and line 456 skips `display_meter`. -/
theorem jack_scenario_counterexample :
    sampleOps.Standard ∧ defaultConfig.decay_led = 2 ∧
    (∃ s', jackRun sampleOps defaultConfig (FloatVal.finite 1)
        ([FloatVal.finite 1] :: List.replicate 2 [FloatVal.finite 0]) Jack.init = some s' ∧
      s'.meter.lastLEDlevel = 0 ∧ s'.meter.lastLEDlevel ≠ -4) ∧
    (∃ s', jackRun sampleOps defaultConfig (FloatVal.finite 1)
        ([FloatVal.finite 1] :: List.replicate 1000 [FloatVal.finite 0]) Jack.init = some s' ∧
      s'.meter.lastLEDlevel = 0 ∧
      litThresholds defaultConfig s'.meter 8 = [0, 1, 2, 3, 4, 5, 6, 7]) := by
  refine ⟨sampleOps_standard, by decide, ?_, ?_⟩
  · obtain ⟨_, s', _, _, _, h, _, hl, _⟩ :=
      jackRun_peak_then_silence sampleOps sampleOps_standard 2
    exact ⟨s', h, hl, by rw [hl]; decide⟩
  · obtain ⟨_, s', _, _, _, h, _, hl, hlit⟩ :=
      jackRun_peak_then_silence sampleOps sampleOps_standard 1000
    exact ⟨s', h, hl, hlit⟩

/-- C8 amended. The JACK tick loop with default options (rate 40, `o_decay = 4`,
bias 1, bar mode, 8 LEDs) and per-tick peaks 1.0, 0.0, 0.0, ...: the first tick
makes the one call `display_meter(0)`, which leaves state `m` with displayed
level 0 dB and all 8 LEDs lit. On every following tick the peak 0.0 gives a
`db` below -144 and `display_meter` is not called: after any number `n` of such
ticks the state of the meter is still `m` (animator variables, GPIO lines and
all), and the log of issued calls is that of the first tick with at most the
one empty-buffer message of line 452 on top (present from the second silent
tick on), whereas any call of `display_meter` in this configuration would have
pushed at least 8 calls onto the log. So the displayed level stays 0 dB with all
8 LEDs lit. -/
theorem jack_scenario (fl : FloatOps) (hfl : fl.Standard) (n : Nat) :
    ∃ m s', display_meter defaultConfig 0 Meter.init = some m ∧
      m.lastLEDlevel = 0 ∧ litThresholds defaultConfig m 8 = [0, 1, 2, 3, 4, 5, 6, 7] ∧
      jackRun fl defaultConfig (FloatVal.finite 1)
        ([FloatVal.finite 1] :: List.replicate n [FloatVal.finite 0]) Jack.init = some s' ∧
      s'.meter = { m with
        calls := (if 2 ≤ n then [IOCall.emptyBufferMessage] else []) ++ m.calls } ∧
      s'.meter.calls.length ≤ m.calls.length + 1 ∧
      (∀ (db : Int) (st st' : Meter), display_meter defaultConfig db st = some st' →
        st.calls.length + 8 ≤ st'.calls.length) ∧
      s'.meter.lastLEDlevel = 0 ∧
      litThresholds defaultConfig s'.meter 8 = [0, 1, 2, 3, 4, 5, 6, 7] := by
  obtain ⟨m, s', hm, hlev, hlit, hrun, hmeter, hlev', hlit'⟩ :=
    jackRun_peak_then_silence fl hfl n
  refine ⟨m, s', hm, hlev, hlit, hrun, hmeter, ?_, ?_, hlev', hlit'⟩
  · rw [hmeter]
    by_cases h2 : 2 ≤ n
    · simp [h2]
    · simp [h2]
  · intro db st st' h
    exact display_meter_bar_calls_length defaultConfig db st st' rfl rfl h

theorem jack_scenario_witness :
    sampleOps.Standard ∧
    ∃ m s', display_meter defaultConfig 0 Meter.init = some m ∧
      m.lastLEDlevel = 0 ∧ litThresholds defaultConfig m 8 = [0, 1, 2, 3, 4, 5, 6, 7] ∧
      jackRun sampleOps defaultConfig (FloatVal.finite 1)
        ([FloatVal.finite 1] :: List.replicate 3 [FloatVal.finite 0]) Jack.init = some s' ∧
      s'.meter = { m with
        calls := (if 2 ≤ 3 then [IOCall.emptyBufferMessage] else []) ++ m.calls } ∧
      s'.meter.calls.length ≤ m.calls.length + 1 ∧
      (∀ (db : Int) (st st' : Meter), display_meter defaultConfig db st = some st' →
        st.calls.length + 8 ≤ st'.calls.length) ∧
      s'.meter.lastLEDlevel = 0 ∧
      litThresholds defaultConfig s'.meter 8 = [0, 1, 2, 3, 4, 5, 6, 7] :=
  ⟨sampleOps_standard, jack_scenario sampleOps sampleOps_standard 3⟩

/-- C9 at a failing input: in single-light mode with 8 LEDs on pins 0..7, one
call of `display_meter` issues `digitalWrite(8, 0)`, a pin past the last LED
(logical position 8, outside 0..7); behind the shift register the same call
goes to pin 108. The clearing loop of line 217 runs to `i <= first_led +
number_of_leds`. -/
theorem single_light_writes_past_last_led :
    singleLightConfig.first_led = 0 ∧ singleLightConfig.number_of_leds = 8 ∧
    (∃ s', display_meter singleLightConfig 0 Meter.init = some s' ∧
      IOCall.digitalWrite 8 false ∈ s'.calls) ∧
    (∃ s', display_meter { singleLightConfig with o_shift_register := true } 0 Meter.init =
        some s' ∧ IOCall.digitalWrite 108 false ∈ s'.calls) ∧
    ¬ (singleLightConfig.first_led ≤ 8 ∧
        8 ≤ singleLightConfig.first_led + singleLightConfig.number_of_leds - 1) := by
  refine ⟨by decide, by decide, ⟨_, rfl, by decide⟩, ⟨_, rfl, by decide⟩, by decide⟩

/-- In single-light mode every rendering call of `display_meter` with 0..16
LEDs issues `digitalWrite(first_led + number_of_leds, 0)` (pin `100 +` that
behind the shift register), one pin past the last LED. -/
theorem single_light_clears_one_past (c : Config) (db : Int) (s : Meter)
    (hsingle : c.single_light = true) (hout : c.o_stdout = false)
    (h0 : 0 ≤ c.number_of_leds) (h16 : c.number_of_leds ≤ 16) :
    ∃ s', display_meter c db s = some s' ∧
      IOCall.digitalWrite (ledPin c (c.first_led + c.number_of_leds)) false ∈ s'.calls := by
  obtain ⟨m, hm, hsub⟩ := singleLight_calls c (animate c db s) h16
  obtain ⟨s', hov, hsub'⟩ := peakHoldOverlay_calls c m h16
  refine ⟨s', ?_, ?_⟩
  · simp [display_meter, hout, renderMain, hsingle, hm, hov]
  · apply hsub'
    apply hsub
    have := (clearLoop_calls c (c.number_of_leds + 1).toNat c.first_led (animate c db s)).2
      c.number_of_leds.toNat (by omega)
    rwa [Int.toNat_of_nonneg h0] at this

theorem single_light_clears_one_past_witness :
    ∃ s', display_meter singleLightConfig (-3) (Meter.showing (-3)) = some s' ∧
      IOCall.digitalWrite (ledPin singleLightConfig
        (singleLightConfig.first_led + singleLightConfig.number_of_leds)) false ∈ s'.calls :=
  single_light_clears_one_past singleLightConfig (-3) (Meter.showing (-3)) rfl rfl
    (by decide) (by decide)

/-- C10. The decay window does not depend on the refresh rate: for every rate
at least 1 and every bias `b` (so in particular every `b` at least 1), with
`decay_len = floor(1.6 * rate)` (written `16 * rate / 10`), line 408 yields
`decay_led = b`. -/
theorem startupDecayLed_eq_bias (rate b : Int) (hrate : 1 ≤ rate) :
    startupDecayLed (16 * rate / 10) rate b = b := by
  have hq : Int.tdiv (16 * rate / 10) rate = 1 := by
    rw [Int.tdiv_eq_ediv (by omega) (by omega)]
    apply le_antisymm
    · have : (16 * rate / 10) / rate < 2 := by
        rw [Int.ediv_lt_iff_lt_mul (by omega)]
        omega
      omega
    · rw [Int.le_ediv_iff_mul_le (by omega)]
      omega
  unfold startupDecayLed
  rw [hq, one_mul]

theorem startupDecayLed_eq_bias_witness :
    (1 : Int) ≤ 40 ∧ startupDecayLed (16 * 40 / 10) 40 2 = 2 ∧
    startupDecayLed (16 * 10 / 10) 10 2 = 2 ∧ startupDecayLed (16 * 100 / 10) 100 2 = 2 :=
  ⟨by decide, startupDecayLed_eq_bias 40 2 (by decide),
    startupDecayLed_eq_bias 10 2 (by decide), startupDecayLed_eq_bias 100 2 (by decide)⟩

end JackPiledmeter
